import Mathlib

/-!
Verification of the tcpherald broker engine (`src/src/program.cpp`,
`PROGRAM::run`).  The event loop is embedded shallowly: the per-iteration
protocol is a pure transition function on an explicit `State`, with the
environment (signals delivered, `serve()` outcome, the three event queues
drained from the socket multiplexer, and the wall-clock second) supplied as
an `IterInput`.  Calls into the multiplexer (`disconnect`, `writef`,
`append_outgoing`, `freeze`/`unfreeze`) are recorded in the state so that
theorems can speak about them.
-/

set_option maxHeartbeats 1000000

/-- Descriptors are integer-valued opaque handles (`int` in the source). -/
abbrev Desc := Int

/-- Embeds `SOCKETS::NO_DESCRIPTOR`, the sentinel descriptor value. -/
def NO_DESCRIPTOR : Desc := -1

/-- Signals observed by the event loop (`program.cpp` lines 89-112). -/
inductive Sig where
  | alarm
  | intr
  | term
  | quit
  | pipe
  | other
  deriving DecidableEq, Repr

/-- Embeds `std::unordered_map` lookup (`count` / `operator[]` read) on an
association list. -/
def lookupA {β : Type} : List (Desc × β) → Desc → Option β
  | [], _ => none
  | p :: r, k => if p.1 = k then some p.2 else lookupA r k

/-- Embeds `std::unordered_map::erase`. -/
def eraseA {β : Type} : List (Desc × β) → Desc → List (Desc × β)
  | [], _ => []
  | p :: r, k => if p.1 = k then eraseA r k else p :: eraseA r k

/-- Embeds `std::unordered_map` assignment `m[k] = v` (insert or update). -/
def insertA {β : Type} : List (Desc × β) → Desc → β → List (Desc × β)
  | [], k, v => [(k, v)]
  | p :: r, k, v => if p.1 = k then (k, v) :: r else p :: insertA r k v

/-- The keys of an association list. -/
def keysA {β : Type} (m : List (Desc × β)) : List Desc := m.map Prod.fst

/-- Embeds `std::unordered_set::insert`. -/
def insertS (l : List Desc) (d : Desc) : List Desc :=
  if d ∈ l then l else d :: l

/-- Embeds `std::unordered_set::erase`. -/
def eraseS : List Desc → Desc → List Desc
  | [], _ => []
  | x :: r, d => if x = d then eraseS r d else x :: eraseS r d

/-- The broker engine's state: the pairing tables and waiting sets of
`PROGRAM::run` (lines 73-79), the multiplexer's frozen set, and the record
of the calls the engine issued to the multiplexer.

The fields `timestamp_map`, `supply_map`, `demand_map`, `unmet_supply`,
`unmet_demand` and `drivers` are the engine's own containers.  `frozen` is
modelled from the spec: the Multiplexer (not under `src/`) keeps the set of
read-frozen descriptors; `freeze(d)`/`unfreeze(d)` add and remove `d`, and
a descriptor is forgotten (including its frozen flag) once its disconnection
event is delivered.  `writes` records `writef` calls as `(descriptor,
payload)` with the payload the formatted `"%lu\n"` line; `outgoing` records
`append_outgoing` calls as `(destination, source-of-the-bytes)`;
`disconnects` records `disconnect` calls in order; `forbidden` counts
"Forbidden condition met" log lines. -/
structure State where
  timestamp_map : List (Desc × Int)
  supply_map : List (Desc × Desc)
  demand_map : List (Desc × Desc)
  unmet_supply : List Desc
  unmet_demand : List Desc
  drivers : List Desc
  frozen : List Desc
  writes : List (Desc × String)
  outgoing : List (Desc × Desc)
  disconnects : List Desc
  forbidden : Nat
  terminated : Bool
  deriving DecidableEq, Repr

/-- Configuration visible to the loop: the three listening descriptors
returned by `listen` (lines 33-47) and the options read through
`get_idle_timeout` / `get_driver_period`. -/
structure Config where
  supply_descriptor : Desc
  demand_descriptor : Desc
  driver_descriptor : Desc
  idle_timeout : Nat
  driver_period : Nat
  deriving DecidableEq, Repr

/-- Environment input of one loop iteration: the drained signal queue, the
result `serve()` would return, the sampled wall-clock second, and the three
event queues drained from the multiplexer.  Each new-connection event
carries `(descriptor, originating listener)` as reported by
`get_listener`. -/
structure IterInput where
  sigs : List Sig
  serve_ok : Bool
  timestamp : Int
  disconnections : List Desc
  connections : List (Desc × Desc)
  incoming : List Desc
  deriving DecidableEq, Repr

/-- Embeds lines 165-174: when the drained descriptor had a live partner
`o`, null the partner's reverse entry and initiate `disconnect(o)`. -/
def finishDisc (st : State) (o : Desc) : State :=
  if o ≠ NO_DESCRIPTOR then
    let st1 :=
      if (lookupA st.supply_map o).isSome then
        { st with supply_map := insertA st.supply_map o NO_DESCRIPTOR }
      else if (lookupA st.demand_map o).isSome then
        { st with demand_map := insertA st.demand_map o NO_DESCRIPTOR }
      else st
    { st1 with disconnects := st1.disconnects ++ [o] }
  else st

/-- Embeds one round of the disconnection drain (lines 135-175): erase the
activity entry, a driver is simply dropped, otherwise the pairing entry (or
the unmet sets) is cleared and the partner torn down via `finishDisc`.  The
removal from `frozen` is modelled from the spec: the Multiplexer forgets a
descriptor, frozen flag included, once its disconnection event is
delivered. -/
def drainDisc1 (st : State) (d : Desc) : State :=
  let st1 : State :=
    { st with timestamp_map := eraseA st.timestamp_map d
              frozen := eraseS st.frozen d }
  if d ∈ st1.drivers then
    { st1 with drivers := eraseS st1.drivers d }
  else
    match lookupA st1.supply_map d with
    | some o => finishDisc { st1 with supply_map := eraseA st1.supply_map d } o
    | none =>
      match lookupA st1.demand_map d with
      | some o => finishDisc { st1 with demand_map := eraseA st1.demand_map d } o
      | none =>
        { st1 with unmet_supply := eraseS st1.unmet_supply d
                   unmet_demand := eraseS st1.unmet_demand d }

/-- Embeds the whole disconnection drain loop (line 135). -/
def drainDisc (st : State) (l : List Desc) : State := l.foldl drainDisc1 st

/-- Embeds one round of the new-connection drain (lines 179-230).  The
accumulator carries the `new_demand` counter.  `*(unmet_*.begin())` is
modelled as the head of the list (the source set's iteration order is
unspecified; the spec allows any deterministic choice). -/
def drainConn1 (cfg : Config) (ts : Int) (acc : State × Nat) (c : Desc × Desc) :
    State × Nat :=
  let st := { acc.1 with timestamp_map := insertA acc.1.timestamp_map c.1 ts }
  let d := c.1
  if c.2 = cfg.supply_descriptor then
    match st.unmet_demand with
    | [] =>
      ({ st with unmet_supply := insertS st.unmet_supply d
                 frozen := insertS st.frozen d }, acc.2)
    | o :: rest =>
      ({ st with unmet_demand := rest
                 supply_map := insertA st.supply_map d o
                 demand_map := insertA st.demand_map o d
                 frozen := eraseS st.frozen o
                 timestamp_map := insertA st.timestamp_map o ts }, acc.2)
  else if c.2 = cfg.demand_descriptor then
    match st.unmet_supply with
    | [] =>
      ({ st with unmet_demand := insertS st.unmet_demand d
                 frozen := insertS st.frozen d }, acc.2 + 1)
    | o :: rest =>
      ({ st with unmet_supply := rest
                 demand_map := insertA st.demand_map d o
                 supply_map := insertA st.supply_map o d
                 frozen := eraseS st.frozen o
                 timestamp_map := insertA st.timestamp_map o ts }, acc.2)
  else if c.2 = cfg.driver_descriptor ∧ cfg.driver_descriptor ≠ NO_DESCRIPTOR then
    ({ st with drivers := insertS st.drivers d
               timestamp_map := insertA st.timestamp_map d (ts + 1)
               writes := st.writes ++
                 [(d, toString st.unmet_demand.length ++ "\n")] }, acc.2)
  else
    ({ st with forbidden := st.forbidden + 1 }, acc.2)

/-- Embeds the whole new-connection drain loop (line 179), starting the
`new_demand` counter at zero (line 177). -/
def drainConn (cfg : Config) (ts : Int) (st : State) (l : List (Desc × Desc)) :
    State × Nat :=
  l.foldl (drainConn1 cfg ts) (st, 0)

/-- Embeds one round of the driver publication loop (lines 233-257).
`timestamp_map[driver]` is `operator[]`, which materialises a zero entry
when the key is absent; that is modelled by `m0`. -/
def pub1 (cfg : Config) (ts : Int) (nd : Nat) (st : State) (driver : Desc) :
    State :=
  let m0 :=
    if (lookupA st.timestamp_map driver).isSome then st.timestamp_map
    else (driver, 0) :: st.timestamp_map
  let tsd := (lookupA m0 driver).getD 0
  let st1 := { st with timestamp_map := m0 }
  if ts < tsd then
    { st1 with timestamp_map := insertA st1.timestamp_map driver ts }
  else if nd = 0 then
    if cfg.driver_period = 0 ∨ ts - tsd < (cfg.driver_period : Int) then st1
    else
      { st1 with writes := st1.writes ++
                   [(driver, toString st1.unmet_demand.length ++ "\n")]
                 timestamp_map := insertA st1.timestamp_map driver ts }
  else
    { st1 with writes := st1.writes ++ [(driver, toString nd ++ "\n")]
               timestamp_map := insertA st1.timestamp_map driver ts }

/-- Embeds the driver publication pass (lines 232-258), guarded by
`new_demand || alarmed`. -/
def driverPublication (cfg : Config) (ts : Int) (nd : Nat) (alarmed : Bool)
    (st : State) : State :=
  if nd ≠ 0 ∨ alarmed = true then st.drivers.foldl (pub1 cfg ts nd) st else st

/-- Embeds one round of the incoming-bytes drain (lines 260-295): bytes
from a driver are discarded; otherwise they are forwarded to the partner
found in `supply_map` or `demand_map` (a `NO_DESCRIPTOR` partner logs
"Forbidden condition met"); in every case the source's activity entry is
refreshed. -/
def inc1 (ts : Int) (st : State) (d : Desc) : State :=
  if d ∈ st.drivers then
    { st with timestamp_map := insertA st.timestamp_map d ts }
  else
    let forward_to :=
      match lookupA st.supply_map d with
      | some f => f
      | none =>
        match lookupA st.demand_map d with
        | some f => f
        | none => NO_DESCRIPTOR
    if forward_to = NO_DESCRIPTOR then
      { st with forbidden := st.forbidden + 1
                timestamp_map := insertA st.timestamp_map d ts }
    else
      { st with outgoing := st.outgoing ++ [(forward_to, d)]
                timestamp_map :=
                  insertA (insertA st.timestamp_map forward_to ts) d ts }

/-- Embeds the whole incoming-bytes drain loop (line 260). -/
def drainIncoming (ts : Int) (st : State) (l : List Desc) : State :=
  l.foldl (inc1 ts) st

/-- Embeds the idle reaper (lines 297-314): when an alarm was consumed and
`idle_timeout` is positive, every activity entry whose age reaches the
timeout has `disconnect` called on its descriptor.  The comparison
`timestamp - p.second >= idle_timeout` promotes the `uint32_t` timeout to
`long long`, embedded as the signed comparison on `Int`. -/
def idleReap (cfg : Config) (alarmed : Bool) (ts : Int) (st : State) : State :=
  if 0 < cfg.idle_timeout ∧ alarmed = true then
    st.timestamp_map.foldl
      (fun acc p =>
        if (cfg.idle_timeout : Int) ≤ ts - p.2 then
          { acc with disconnects := acc.disconnects ++ [p.1] }
        else acc)
      st
  else st

/-- Embeds lines 97-99: the signals that set `terminated`. -/
def isTermSig : Sig → Bool
  | .intr => true
  | .term => true
  | .quit => true
  | _ => false

/-- Embeds one full iteration of the `do`-`while` body (lines 85-315),
also returning the iteration's `new_demand` counter.  The guard at line
118 disconnects the three listening descriptors and `continue`s; when the
guard is not taken, `serve()` runs unless `alarmed` (line 126) and its
failure sets `terminated`, after which the phases run in source order:
disconnections, new connections, driver publication, incoming bytes, idle
reap. -/
def iterateND (cfg : Config) (st : State) (inp : IterInput) : State × Nat :=
  let alarmed := inp.sigs.contains Sig.alarm
  if st.terminated || inp.sigs.any isTermSig then
    ({ st with terminated := true
               disconnects := st.disconnects ++
                 [cfg.demand_descriptor, cfg.supply_descriptor,
                  cfg.driver_descriptor] }, 0)
  else
    let st0 := { st with terminated := !alarmed && !inp.serve_ok }
    let ts := inp.timestamp
    let st1 := drainDisc st0 inp.disconnections
    let p := drainConn cfg ts st1 inp.connections
    let st2 := driverPublication cfg ts p.2 alarmed p.1
    let st3 := drainIncoming ts st2 inp.incoming
    (idleReap cfg alarmed ts st3, p.2)

/-- One full iteration of the event loop, state part. -/
def iterate (cfg : Config) (st : State) (inp : IterInput) : State :=
  (iterateND cfg st inp).1

/-- Embeds the `do { ... } while (!terminated)` shape of lines 85-316:
runs iterations while inputs remain, stopping right after the first
iteration at whose end `terminated` holds, and returns the final state
together with the number of iterations executed. -/
def runLoop (cfg : Config) : State → List IterInput → State × Nat
  | st, [] => (st, 0)
  | st, inp :: rest =>
    let st1 := iterate cfg st inp
    if st1.terminated then (st1, 1)
    else
      let r := runLoop cfg st1 rest
      (r.1, r.2 + 1)

/-- The state at loop entry: every container empty (lines 73-79),
`terminated` false (line 31). -/
def initialState : State :=
  { timestamp_map := [], supply_map := [], demand_map := []
    unmet_supply := [], unmet_demand := [], drivers := [], frozen := []
    writes := [], outgoing := [], disconnects := [], forbidden := 0
    terminated := false }

/-- Holds when the engine has an entry for `x` in one of its five pairing
containers (spec §3: "Every descriptor known to the engine"). -/
def Tracked (st : State) (x : Desc) : Prop :=
  x ∈ keysA st.supply_map ∨ x ∈ keysA st.demand_map ∨
  x ∈ st.unmet_supply ∨ x ∈ st.unmet_demand ∨ x ∈ st.drivers

instance (st : State) (x : Desc) : Decidable (Tracked st x) := by
  unfold Tracked
  exact inferInstance

/-- The engine-state invariant maintained by the event loop: duplicate-free
containers, pairwise disjointness of the five containers (spec §3), pairing
symmetry (P1), the freeze correspondence (P2), the no-double-match property
(P3), and absence of the `NO_DESCRIPTOR` sentinel from key positions and
waiting sets. -/
structure WF (st : State) : Prop where
  sm_nd : (keysA st.supply_map).Nodup
  dm_nd : (keysA st.demand_map).Nodup
  us_nd : st.unmet_supply.Nodup
  ud_nd : st.unmet_demand.Nodup
  dr_nd : st.drivers.Nodup
  sm_dm : ∀ x ∈ keysA st.supply_map, x ∉ keysA st.demand_map
  sm_us : ∀ x ∈ keysA st.supply_map, x ∉ st.unmet_supply
  sm_ud : ∀ x ∈ keysA st.supply_map, x ∉ st.unmet_demand
  sm_dr : ∀ x ∈ keysA st.supply_map, x ∉ st.drivers
  dm_us : ∀ x ∈ keysA st.demand_map, x ∉ st.unmet_supply
  dm_ud : ∀ x ∈ keysA st.demand_map, x ∉ st.unmet_demand
  dm_dr : ∀ x ∈ keysA st.demand_map, x ∉ st.drivers
  us_ud : ∀ x ∈ st.unmet_supply, x ∉ st.unmet_demand
  us_dr : ∀ x ∈ st.unmet_supply, x ∉ st.drivers
  ud_dr : ∀ x ∈ st.unmet_demand, x ∉ st.drivers
  sym_s : ∀ p ∈ st.supply_map, p.2 ≠ NO_DESCRIPTOR →
    lookupA st.demand_map p.2 = some p.1
  sym_d : ∀ p ∈ st.demand_map, p.2 ≠ NO_DESCRIPTOR →
    lookupA st.supply_map p.2 = some p.1
  fr_mem : ∀ x ∈ st.frozen, x ∈ st.unmet_supply ∨ x ∈ st.unmet_demand
  us_fr : ∀ x ∈ st.unmet_supply, x ∈ st.frozen
  ud_fr : ∀ x ∈ st.unmet_demand, x ∈ st.frozen
  meet : st.unmet_supply = [] ∨ st.unmet_demand = []
  none_sm : NO_DESCRIPTOR ∉ keysA st.supply_map
  none_dm : NO_DESCRIPTOR ∉ keysA st.demand_map
  none_us : NO_DESCRIPTOR ∉ st.unmet_supply
  none_ud : NO_DESCRIPTOR ∉ st.unmet_demand

/-- Well-formedness of one iteration's new-connection batch: the accepted
descriptors are pairwise distinct, are not the sentinel, and are fresh —
not currently tracked by the engine (descriptor handles are stable for a
connection's lifetime, spec §3 and §9). -/
structure GoodConns (st : State) (inp : IterInput) : Prop where
  nd : (inp.connections.map Prod.fst).Nodup
  fresh : ∀ c ∈ inp.connections, c.1 ≠ NO_DESCRIPTOR ∧ ¬ Tracked st c.1

/-- Concrete configuration used by witnesses and counterexamples: supply,
demand and driver listeners on descriptors 1, 2 and 3. -/
def cfgX : Config :=
  { supply_descriptor := 1, demand_descriptor := 2, driver_descriptor := 3
    idle_timeout := 0, driver_period := 0 }

/-- Iteration input in which only a driver connection (descriptor 10)
arrives, at second 100. -/
def inpX1 : IterInput :=
  { sigs := [], serve_ok := true, timestamp := 100
    disconnections := [], connections := [(10, 3)], incoming := [] }

/-- Iteration input in which only a demand connection (descriptor 11)
arrives, still at second 100. -/
def inpX2 : IterInput :=
  { sigs := [], serve_ok := true, timestamp := 100
    disconnections := [], connections := [(11, 2)], incoming := [] }

/-- Engine state holding one paired connection 7 (supply) and 8 (demand). -/
def stY : State :=
  { initialState with
    supply_map := [(7, 8)]
    demand_map := [(8, 7)]
    timestamp_map := [(7, 100), (8, 100)] }

/-- Iteration input delivering `SIGINT` and nothing else. -/
def inpY1 : IterInput :=
  { sigs := [.intr], serve_ok := true, timestamp := 101
    disconnections := [], connections := [], incoming := [] }

/-- Iteration input carrying the disconnection events of the pair 7 and 8
(as the multiplexer would surface them after the listeners close). -/
def inpY2 : IterInput :=
  { sigs := [], serve_ok := true, timestamp := 101
    disconnections := [7, 8], connections := [], incoming := [] }

/-- Concrete configuration with a five-second idle timeout, used by the
idle-reaper witness. -/
def cfgZ : Config :=
  { supply_descriptor := 1, demand_descriptor := 2, driver_descriptor := 3
    idle_timeout := 5, driver_period := 2 }

/-- Engine state with three activity entries: one stale (descriptor 7, ten
seconds old at second 100), one fresh (descriptor 8), and one whose entry
lies in the future (descriptor 9, as after a wall-clock jump backwards). -/
def stZ : State :=
  { initialState with
    timestamp_map := [(7, 90), (8, 100), (9, 106)]
    supply_map := [(7, 8)]
    demand_map := [(8, 7)]
    drivers := [9] }

/-! ### Lemmas about the container operations -/

theorem eraseS_eq_filter (l : List Desc) (d : Desc) :
    eraseS l d = l.filter (fun x => x ≠ d) := by
  induction l with
  | nil => rfl
  | cons y r ih =>
    by_cases h : y = d
    · simp [eraseS, h, ih]
    · simp [eraseS, h, ih]

theorem mem_eraseS {l : List Desc} {d x : Desc} :
    x ∈ eraseS l d ↔ x ∈ l ∧ x ≠ d := by
  rw [eraseS_eq_filter]
  simp

theorem eraseS_sublist (l : List Desc) (d : Desc) : (eraseS l d).Sublist l := by
  rw [eraseS_eq_filter]
  exact List.filter_sublist l

theorem nodup_eraseS {l : List Desc} (h : l.Nodup) (d : Desc) :
    (eraseS l d).Nodup :=
  h.sublist (eraseS_sublist l d)

theorem mem_insertS {l : List Desc} {d x : Desc} :
    x ∈ insertS l d ↔ x ∈ l ∨ x = d := by
  by_cases h : d ∈ l
  · rw [insertS, if_pos h]
    constructor
    · exact Or.inl
    · rintro (hx | rfl)
      · exact hx
      · exact h
  · rw [insertS, if_neg h]
    rw [List.mem_cons, or_comm]

theorem nodup_insertS {l : List Desc} (h : l.Nodup) (d : Desc) :
    (insertS l d).Nodup := by
  by_cases hd : d ∈ l
  · rw [insertS, if_pos hd]
    exact h
  · rw [insertS, if_neg hd]
    exact List.nodup_cons.mpr ⟨hd, h⟩

theorem eraseA_eq_filter {β : Type} (m : List (Desc × β)) (k : Desc) :
    eraseA m k = m.filter (fun p => p.1 ≠ k) := by
  induction m with
  | nil => rfl
  | cons q r ih =>
    by_cases h : q.1 = k
    · simp [eraseA, h, ih]
    · simp [eraseA, h, ih]

theorem mem_eraseA {β : Type} {m : List (Desc × β)} {k : Desc} {p : Desc × β} :
    p ∈ eraseA m k ↔ p ∈ m ∧ p.1 ≠ k := by
  rw [eraseA_eq_filter]
  simp

theorem eraseA_sublist {β : Type} (m : List (Desc × β)) (k : Desc) :
    (eraseA m k).Sublist m := by
  rw [eraseA_eq_filter]
  exact List.filter_sublist m

theorem keysA_eraseA_sublist {β : Type} (m : List (Desc × β)) (k : Desc) :
    (keysA (eraseA m k)).Sublist (keysA m) :=
  (eraseA_sublist m k).map Prod.fst

theorem mem_keysA {β : Type} {m : List (Desc × β)} {x : Desc} :
    x ∈ keysA m ↔ ∃ v, (x, v) ∈ m := by
  unfold keysA
  constructor
  · intro h
    rcases List.mem_map.mp h with ⟨p, hp, hpx⟩
    exact ⟨p.2, by simpa [← hpx] using hp⟩
  · rintro ⟨v, hv⟩
    exact List.mem_map.mpr ⟨(x, v), hv, rfl⟩

theorem mem_keysA_of_mem {β : Type} {m : List (Desc × β)} {p : Desc × β}
    (h : p ∈ m) : p.1 ∈ keysA m :=
  List.mem_map.mpr ⟨p, h, rfl⟩

theorem mem_keysA_eraseA {β : Type} {m : List (Desc × β)} {k x : Desc} :
    x ∈ keysA (eraseA m k) ↔ x ∈ keysA m ∧ x ≠ k := by
  constructor
  · intro h
    rcases mem_keysA.mp h with ⟨v, hv⟩
    rcases mem_eraseA.mp hv with ⟨hm, hne⟩
    exact ⟨mem_keysA_of_mem hm, hne⟩
  · rintro ⟨h, hne⟩
    rcases mem_keysA.mp h with ⟨v, hv⟩
    exact mem_keysA_of_mem (mem_eraseA.mpr ⟨hv, hne⟩)

theorem keysA_cons {β : Type} (p : Desc × β) (r : List (Desc × β)) :
    keysA (p :: r) = p.1 :: keysA r := rfl

theorem lookupA_eq_none {β : Type} {m : List (Desc × β)} {x : Desc} :
    lookupA m x = none ↔ x ∉ keysA m := by
  induction m with
  | nil => simp [lookupA, keysA]
  | cons p r ih =>
    by_cases h : p.1 = x
    · simp [lookupA, h, keysA]
    · rw [lookupA, if_neg h, ih, keysA_cons, List.mem_cons]
      constructor
      · intro hx hc
        rcases hc with hc1 | hc1
        · exact h hc1.symm
        · exact hx hc1
      · intro hx hc
        exact hx (Or.inr hc)

theorem lookupA_isSome {β : Type} {m : List (Desc × β)} {x : Desc} :
    (lookupA m x).isSome = true ↔ x ∈ keysA m := by
  rcases h : lookupA m x with _ | v
  · simpa using lookupA_eq_none.mp h
  · simp only [Option.isSome_some, true_iff]
    by_contra hx
    rw [lookupA_eq_none.mpr hx] at h
    exact Option.noConfusion h

theorem mem_of_lookupA {β : Type} {m : List (Desc × β)} {x : Desc} {v : β}
    (h : lookupA m x = some v) : (x, v) ∈ m := by
  induction m with
  | nil => exact absurd h (by simp [lookupA])
  | cons p r ih =>
    by_cases hp : p.1 = x
    · rw [lookupA, if_pos hp] at h
      have : p = (x, v) := by
        obtain ⟨p1, p2⟩ := p
        cases h
        cases hp
        rfl
      rw [← this]
      exact List.mem_cons_self p r
    · rw [lookupA, if_neg hp] at h
      exact List.mem_cons_of_mem _ (ih h)

theorem keysA_mem_of_lookupA {β : Type} {m : List (Desc × β)} {x : Desc}
    {v : β} (h : lookupA m x = some v) : x ∈ keysA m :=
  mem_keysA.mpr ⟨v, mem_of_lookupA h⟩

theorem lookupA_of_mem {β : Type} {m : List (Desc × β)} {p : Desc × β}
    (hnd : (keysA m).Nodup) (h : p ∈ m) : lookupA m p.1 = some p.2 := by
  induction m with
  | nil => cases h
  | cons q r ih =>
    rw [keysA, List.map_cons, List.nodup_cons] at hnd
    rcases List.mem_cons.mp h with rfl | hr
    · rw [lookupA, if_pos rfl]
    · have hq : q.1 ≠ p.1 := fun he => hnd.1 (he ▸ mem_keysA_of_mem hr)
      rw [lookupA, if_neg hq]
      exact ih hnd.2 hr

theorem lookupA_insertA_self {β : Type} (m : List (Desc × β)) (k : Desc)
    (v : β) : lookupA (insertA m k v) k = some v := by
  induction m with
  | nil => simp [insertA, lookupA]
  | cons p r ih =>
    by_cases h : p.1 = k
    · rw [insertA, if_pos h, lookupA, if_pos rfl]
    · rw [insertA, if_neg h, lookupA, if_neg h, ih]

theorem lookupA_insertA_ne {β : Type} (m : List (Desc × β)) (k x : Desc)
    (v : β) (h : x ≠ k) : lookupA (insertA m k v) x = lookupA m x := by
  have hk : ¬(k = x) := fun he => h he.symm
  induction m with
  | nil => simp [insertA, lookupA, hk]
  | cons p r ih =>
    by_cases hp : p.1 = k
    · rw [insertA, if_pos hp, lookupA, if_neg hk, lookupA,
        if_neg (hp ▸ hk)]
    · rw [insertA, if_neg hp, lookupA, lookupA]
      by_cases hx : p.1 = x
      · rw [if_pos hx, if_pos hx]
      · rw [if_neg hx, if_neg hx, ih]

theorem lookupA_eraseA_self {β : Type} (m : List (Desc × β)) (k : Desc) :
    lookupA (eraseA m k) k = none :=
  lookupA_eq_none.mpr (fun h => (mem_keysA_eraseA.mp h).2 rfl)

theorem lookupA_eraseA_ne {β : Type} (m : List (Desc × β)) (k x : Desc)
    (h : x ≠ k) : lookupA (eraseA m k) x = lookupA m x := by
  induction m with
  | nil => simp [eraseA]
  | cons p r ih =>
    by_cases hp : p.1 = k
    · have hpx : ¬(p.1 = x) := fun he => h (he.symm.trans hp)
      rw [eraseA, if_pos hp, ih, lookupA, if_neg hpx]
    · rw [eraseA, if_neg hp, lookupA, lookupA]
      by_cases hx : p.1 = x
      · rw [if_pos hx, if_pos hx]
      · rw [if_neg hx, if_neg hx, ih]

theorem keysA_insertA_of_mem {β : Type} {m : List (Desc × β)} {k : Desc}
    (v : β) (h : k ∈ keysA m) : keysA (insertA m k v) = keysA m := by
  induction m with
  | nil => cases h
  | cons p r ih =>
    by_cases hp : p.1 = k
    · rw [insertA, if_pos hp, keysA_cons, keysA_cons, hp]
    · have hr : k ∈ keysA r := by
        rcases List.mem_cons.mp (by rw [keysA_cons] at h; exact h) with hc | hc
        · exact absurd hc.symm hp
        · exact hc
      rw [insertA, if_neg hp, keysA_cons, keysA_cons, ih hr]

theorem insertA_of_not_mem {β : Type} {m : List (Desc × β)} {k : Desc}
    (v : β) (h : k ∉ keysA m) : insertA m k v = m ++ [(k, v)] := by
  induction m with
  | nil => rfl
  | cons p r ih =>
    rw [keysA_cons, List.mem_cons] at h
    push_neg at h
    have hp : ¬(p.1 = k) := fun he => h.1 he.symm
    rw [insertA, if_neg hp, List.cons_append, ih h.2]

theorem mem_keysA_insertA {β : Type} {m : List (Desc × β)} {k x : Desc}
    {v : β} : x ∈ keysA (insertA m k v) ↔ x ∈ keysA m ∨ x = k := by
  by_cases h : k ∈ keysA m
  · rw [keysA_insertA_of_mem v h]
    constructor
    · exact Or.inl
    · rintro (hx | rfl)
      · exact hx
      · exact h
  · rw [insertA_of_not_mem v h]
    unfold keysA
    rw [List.map_append, List.mem_append]
    simp [keysA]

theorem nodup_keysA_insertA {β : Type} {m : List (Desc × β)} {k : Desc}
    (v : β) (h : (keysA m).Nodup) : (keysA (insertA m k v)).Nodup := by
  by_cases hk : k ∈ keysA m
  · rw [keysA_insertA_of_mem v hk]
    exact h
  · rw [insertA_of_not_mem v hk]
    unfold keysA
    rw [List.map_append]
    refine List.Nodup.append h (by simp) ?_
    intro a ha hb
    rcases List.mem_singleton.mp (by simpa using hb) with rfl
    exact hk ha

theorem nodup_keysA_eraseA {β : Type} {m : List (Desc × β)} (k : Desc)
    (h : (keysA m).Nodup) : (keysA (eraseA m k)).Nodup :=
  h.sublist (keysA_eraseA_sublist m k)

theorem mem_insertA {β : Type} {m : List (Desc × β)} {k : Desc} {v : β}
    {p : Desc × β} (hnd : (keysA m).Nodup) :
    p ∈ insertA m k v ↔ p = (k, v) ∨ (p ∈ m ∧ p.1 ≠ k) := by
  by_cases hk : k ∈ keysA m
  · induction m with
    | nil => cases hk
    | cons q r ih =>
      rw [keysA_cons, List.nodup_cons] at hnd
      by_cases hq : q.1 = k
      · rw [insertA, if_pos hq, List.mem_cons, List.mem_cons]
        constructor
        · rintro (rfl | hp)
          · exact Or.inl rfl
          · refine Or.inr ⟨Or.inr hp, fun he => hnd.1 ?_⟩
            rw [hq]
            exact he ▸ mem_keysA_of_mem hp
        · rintro (rfl | ⟨rfl | hp, hne⟩)
          · exact Or.inl rfl
          · exact absurd hq hne
          · exact Or.inr hp
      · have hr : k ∈ keysA r := by
          rcases List.mem_cons.mp (by rw [keysA_cons] at hk; exact hk)
            with hc | hc
          · exact absurd hc.symm hq
          · exact hc
        rw [insertA, if_neg hq, List.mem_cons, ih hnd.2 hr, List.mem_cons]
        constructor
        · rintro (rfl | rfl | ⟨hp, hne⟩)
          · exact Or.inr ⟨Or.inl rfl, hq⟩
          · exact Or.inl rfl
          · exact Or.inr ⟨Or.inr hp, hne⟩
        · rintro (rfl | ⟨rfl | hp, hne⟩)
          · exact Or.inr (Or.inl rfl)
          · exact Or.inl rfl
          · exact Or.inr (Or.inr ⟨hp, hne⟩)
  · rw [insertA_of_not_mem v hk, List.mem_append, List.mem_singleton]
    constructor
    · rintro (hp | rfl)
      · exact Or.inr ⟨hp, fun he => hk (he ▸ mem_keysA_of_mem hp)⟩
      · exact Or.inl rfl
    · rintro (rfl | ⟨hp, _⟩)
      · exact Or.inr rfl
      · exact Or.inl hp

/-! ### Branch characterizations of the phase functions -/

theorem finishDisc_none (st : State) : finishDisc st NO_DESCRIPTOR = st := by
  simp [finishDisc]

theorem finishDisc_supply (st : State) (o : Desc) (ho : o ≠ NO_DESCRIPTOR)
    (h : o ∈ keysA st.supply_map) :
    finishDisc st o =
      { st with supply_map := insertA st.supply_map o NO_DESCRIPTOR
                disconnects := st.disconnects ++ [o] } := by
  simp [finishDisc, ho, lookupA_isSome.mpr h]

theorem finishDisc_demand (st : State) (o : Desc) (ho : o ≠ NO_DESCRIPTOR)
    (hs : o ∉ keysA st.supply_map) (hd : o ∈ keysA st.demand_map) :
    finishDisc st o =
      { st with demand_map := insertA st.demand_map o NO_DESCRIPTOR
                disconnects := st.disconnects ++ [o] } := by
  simp [finishDisc, ho, lookupA_eq_none.mpr hs, lookupA_isSome.mpr hd]

theorem finishDisc_orphan (st : State) (o : Desc) (ho : o ≠ NO_DESCRIPTOR)
    (hs : o ∉ keysA st.supply_map) (hd : o ∉ keysA st.demand_map) :
    finishDisc st o = { st with disconnects := st.disconnects ++ [o] } := by
  simp [finishDisc, ho, lookupA_eq_none.mpr hs, lookupA_eq_none.mpr hd]

theorem drainDisc1_driver (st : State) (d : Desc) (h : d ∈ st.drivers) :
    drainDisc1 st d =
      { st with timestamp_map := eraseA st.timestamp_map d
                frozen := eraseS st.frozen d
                drivers := eraseS st.drivers d } := by
  simp [drainDisc1, h]

theorem drainDisc1_supply (st : State) (d o : Desc)
    (hdr : d ∉ st.drivers) (hs : lookupA st.supply_map d = some o) :
    drainDisc1 st d =
      finishDisc
        { st with timestamp_map := eraseA st.timestamp_map d
                  frozen := eraseS st.frozen d
                  supply_map := eraseA st.supply_map d } o := by
  simp [drainDisc1, hdr, hs]

theorem drainDisc1_demand (st : State) (d o : Desc)
    (hdr : d ∉ st.drivers) (hs : lookupA st.supply_map d = none)
    (hd : lookupA st.demand_map d = some o) :
    drainDisc1 st d =
      finishDisc
        { st with timestamp_map := eraseA st.timestamp_map d
                  frozen := eraseS st.frozen d
                  demand_map := eraseA st.demand_map d } o := by
  simp [drainDisc1, hdr, hs, hd]

theorem drainDisc1_unmet (st : State) (d : Desc)
    (hdr : d ∉ st.drivers) (hs : lookupA st.supply_map d = none)
    (hd : lookupA st.demand_map d = none) :
    drainDisc1 st d =
      { st with timestamp_map := eraseA st.timestamp_map d
                frozen := eraseS st.frozen d
                unmet_supply := eraseS st.unmet_supply d
                unmet_demand := eraseS st.unmet_demand d } := by
  simp [drainDisc1, hdr, hs, hd]

theorem drainConn1_supply_wait (cfg : Config) (ts : Int) (st : State)
    (nd : Nat) (d lst : Desc) (hl : lst = cfg.supply_descriptor)
    (hud : st.unmet_demand = []) :
    drainConn1 cfg ts (st, nd) (d, lst) =
      ({ st with timestamp_map := insertA st.timestamp_map d ts
                 unmet_supply := insertS st.unmet_supply d
                 frozen := insertS st.frozen d }, nd) := by
  simp [drainConn1, hl, hud]

theorem drainConn1_supply_pair (cfg : Config) (ts : Int) (st : State)
    (nd : Nat) (d lst o : Desc) (rest : List Desc)
    (hl : lst = cfg.supply_descriptor) (hud : st.unmet_demand = o :: rest) :
    drainConn1 cfg ts (st, nd) (d, lst) =
      ({ st with timestamp_map := insertA (insertA st.timestamp_map d ts) o ts
                 unmet_demand := rest
                 supply_map := insertA st.supply_map d o
                 demand_map := insertA st.demand_map o d
                 frozen := eraseS st.frozen o }, nd) := by
  simp [drainConn1, hl, hud]

theorem drainConn1_demand_wait (cfg : Config) (ts : Int) (st : State)
    (nd : Nat) (d lst : Desc) (hl : ¬(lst = cfg.supply_descriptor))
    (hl2 : lst = cfg.demand_descriptor) (hus : st.unmet_supply = []) :
    drainConn1 cfg ts (st, nd) (d, lst) =
      ({ st with timestamp_map := insertA st.timestamp_map d ts
                 unmet_demand := insertS st.unmet_demand d
                 frozen := insertS st.frozen d }, nd + 1) := by
  subst hl2
  simp [drainConn1, hl, hus]

theorem drainConn1_demand_pair (cfg : Config) (ts : Int) (st : State)
    (nd : Nat) (d lst o : Desc) (rest : List Desc)
    (hl : ¬(lst = cfg.supply_descriptor)) (hl2 : lst = cfg.demand_descriptor)
    (hus : st.unmet_supply = o :: rest) :
    drainConn1 cfg ts (st, nd) (d, lst) =
      ({ st with timestamp_map := insertA (insertA st.timestamp_map d ts) o ts
                 unmet_supply := rest
                 demand_map := insertA st.demand_map d o
                 supply_map := insertA st.supply_map o d
                 frozen := eraseS st.frozen o }, nd) := by
  subst hl2
  simp [drainConn1, hl, hus]

theorem drainConn1_driver (cfg : Config) (ts : Int) (st : State)
    (nd : Nat) (d lst : Desc) (hl : ¬(lst = cfg.supply_descriptor))
    (hl2 : ¬(lst = cfg.demand_descriptor)) (hl3 : lst = cfg.driver_descriptor)
    (hen : cfg.driver_descriptor ≠ NO_DESCRIPTOR) :
    drainConn1 cfg ts (st, nd) (d, lst) =
      ({ st with timestamp_map := insertA (insertA st.timestamp_map d ts) d (ts + 1)
                 drivers := insertS st.drivers d
                 writes := st.writes ++
                   [(d, toString st.unmet_demand.length ++ "\n")] }, nd) := by
  subst hl3
  simp [drainConn1, hl, hl2, hen]

theorem drainConn1_unknown (cfg : Config) (ts : Int) (st : State)
    (nd : Nat) (d lst : Desc) (hl : ¬(lst = cfg.supply_descriptor))
    (hl2 : ¬(lst = cfg.demand_descriptor))
    (hl3 : ¬(lst = cfg.driver_descriptor ∧
      cfg.driver_descriptor ≠ NO_DESCRIPTOR)) :
    drainConn1 cfg ts (st, nd) (d, lst) =
      ({ st with timestamp_map := insertA st.timestamp_map d ts
                 forbidden := st.forbidden + 1 }, nd) := by
  simp only [drainConn1, if_neg hl, if_neg hl2, if_neg hl3]

theorem lookupA_insertA_cases {β : Type} (m : List (Desc × β)) (k x : Desc)
    (v : β) :
    lookupA (insertA m k v) x = some v ∨
      lookupA (insertA m k v) x = lookupA m x := by
  by_cases h : x = k
  · subst h
    exact Or.inl (lookupA_insertA_self m x v)
  · exact Or.inr (lookupA_insertA_ne m k x v h)

theorem pub1_sentinel (cfg : Config) (ts : Int) (nd : Nat) (st : State)
    (driver : Desc) (tsd : Int)
    (h : lookupA st.timestamp_map driver = some tsd) (hgt : ts < tsd) :
    pub1 cfg ts nd st driver =
      { st with timestamp_map := insertA st.timestamp_map driver ts } := by
  simp [pub1, h, hgt]

theorem pub1_write (cfg : Config) (ts : Int) (nd : Nat) (st : State)
    (driver : Desc) (tsd : Int)
    (h : lookupA st.timestamp_map driver = some tsd) (hle : tsd ≤ ts)
    (hnd : nd ≠ 0) :
    pub1 cfg ts nd st driver =
      { st with writes := st.writes ++ [(driver, toString nd ++ "\n")]
                timestamp_map := insertA st.timestamp_map driver ts } := by
  simp [pub1, h, not_lt.mpr hle, hnd]

theorem pub1_skip (cfg : Config) (ts : Int) (st : State) (driver : Desc)
    (tsd : Int) (h : lookupA st.timestamp_map driver = some tsd)
    (hle : tsd ≤ ts)
    (hper : cfg.driver_period = 0 ∨ ts - tsd < (cfg.driver_period : Int)) :
    pub1 cfg ts 0 st driver = st := by
  simp [pub1, h, not_lt.mpr hle, hper]

theorem pub1_heartbeat (cfg : Config) (ts : Int) (st : State) (driver : Desc)
    (tsd : Int) (h : lookupA st.timestamp_map driver = some tsd)
    (hle : tsd ≤ ts)
    (hper : ¬(cfg.driver_period = 0 ∨ ts - tsd < (cfg.driver_period : Int))) :
    pub1 cfg ts 0 st driver =
      { st with writes := st.writes ++
                  [(driver, toString st.unmet_demand.length ++ "\n")]
                timestamp_map := insertA st.timestamp_map driver ts } := by
  simp only [pub1, h, Option.isSome_some, if_true, Option.getD_some,
    if_neg (not_lt.mpr hle), if_pos rfl, if_neg hper]

theorem pub1_tables (cfg : Config) (ts : Int) (nd : Nat) (st : State)
    (driver : Desc) :
    (pub1 cfg ts nd st driver).supply_map = st.supply_map ∧
    (pub1 cfg ts nd st driver).demand_map = st.demand_map ∧
    (pub1 cfg ts nd st driver).unmet_supply = st.unmet_supply ∧
    (pub1 cfg ts nd st driver).unmet_demand = st.unmet_demand ∧
    (pub1 cfg ts nd st driver).drivers = st.drivers ∧
    (pub1 cfg ts nd st driver).frozen = st.frozen ∧
    (pub1 cfg ts nd st driver).outgoing = st.outgoing ∧
    (pub1 cfg ts nd st driver).disconnects = st.disconnects ∧
    (pub1 cfg ts nd st driver).forbidden = st.forbidden ∧
    (pub1 cfg ts nd st driver).terminated = st.terminated := by
  unfold pub1
  dsimp only
  split_ifs <;> simp

theorem inc1_tables (ts : Int) (st : State) (d : Desc) :
    (inc1 ts st d).supply_map = st.supply_map ∧
    (inc1 ts st d).demand_map = st.demand_map ∧
    (inc1 ts st d).unmet_supply = st.unmet_supply ∧
    (inc1 ts st d).unmet_demand = st.unmet_demand ∧
    (inc1 ts st d).drivers = st.drivers ∧
    (inc1 ts st d).frozen = st.frozen ∧
    (inc1 ts st d).writes = st.writes ∧
    (inc1 ts st d).disconnects = st.disconnects ∧
    (inc1 ts st d).terminated = st.terminated := by
  unfold inc1
  dsimp only
  split_ifs <;> simp

theorem lookupA_insertA_keep {β : Type} {m : List (Desc × β)} {x : Desc}
    {v : β} (k : Desc) (h : lookupA m x = some v) :
    lookupA (insertA m k v) x = some v := by
  rcases lookupA_insertA_cases m k x v with hc | hc
  · exact hc
  · exact hc.trans h

theorem inc1_lookup_self (ts : Int) (st : State) (d : Desc) :
    lookupA (inc1 ts st d).timestamp_map d = some ts := by
  unfold inc1
  dsimp only
  split_ifs <;> exact lookupA_insertA_self _ _ _

theorem inc1_lookup_keep (ts : Int) (st : State) (d x : Desc)
    (h : lookupA st.timestamp_map x = some ts) :
    lookupA (inc1 ts st d).timestamp_map x = some ts := by
  unfold inc1
  dsimp only
  split_ifs <;>
    first
      | exact lookupA_insertA_keep _ h
      | exact lookupA_insertA_keep _ (lookupA_insertA_keep _ h)

theorem wf_congr {a b : State} (hwf : WF a)
    (h1 : b.supply_map = a.supply_map) (h2 : b.demand_map = a.demand_map)
    (h3 : b.unmet_supply = a.unmet_supply)
    (h4 : b.unmet_demand = a.unmet_demand) (h5 : b.drivers = a.drivers)
    (h6 : b.frozen = a.frozen) : WF b := by
  refine ⟨?_, ?_, ?_, ?_, ?_, ?_, ?_, ?_, ?_, ?_, ?_, ?_, ?_, ?_, ?_, ?_,
    ?_, ?_, ?_, ?_, ?_, ?_, ?_, ?_, ?_⟩ <;>
    simp only [h1, h2, h3, h4, h5, h6] <;>
    first
      | exact hwf.sm_nd | exact hwf.dm_nd | exact hwf.us_nd
      | exact hwf.ud_nd | exact hwf.dr_nd | exact hwf.sm_dm
      | exact hwf.sm_us | exact hwf.sm_ud | exact hwf.sm_dr
      | exact hwf.dm_us | exact hwf.dm_ud | exact hwf.dm_dr
      | exact hwf.us_ud | exact hwf.us_dr | exact hwf.ud_dr
      | exact hwf.sym_s | exact hwf.sym_d | exact hwf.fr_mem
      | exact hwf.us_fr | exact hwf.ud_fr | exact hwf.meet
      | exact hwf.none_sm | exact hwf.none_dm | exact hwf.none_us
      | exact hwf.none_ud

/-! ### Preservation of the invariant by the disconnection drain -/

theorem wf_drainDisc1_driver {st : State} {d : Desc} (hwf : WF st)
    (hdr : d ∈ st.drivers) : WF (drainDisc1 st d) := by
  rw [drainDisc1_driver st d hdr]
  refine ⟨hwf.sm_nd, hwf.dm_nd, hwf.us_nd, hwf.ud_nd,
    nodup_eraseS hwf.dr_nd d, hwf.sm_dm, hwf.sm_us, hwf.sm_ud, ?_,
    hwf.dm_us, hwf.dm_ud, ?_, hwf.us_ud, ?_, ?_, hwf.sym_s, hwf.sym_d,
    ?_, ?_, ?_, hwf.meet, hwf.none_sm, hwf.none_dm, hwf.none_us,
    hwf.none_ud⟩
  · intro x hx hc
    exact hwf.sm_dr x hx (mem_eraseS.mp hc).1
  · intro x hx hc
    exact hwf.dm_dr x hx (mem_eraseS.mp hc).1
  · intro x hx hc
    exact hwf.us_dr x hx (mem_eraseS.mp hc).1
  · intro x hx hc
    exact hwf.ud_dr x hx (mem_eraseS.mp hc).1
  · intro x hx
    exact hwf.fr_mem x (mem_eraseS.mp hx).1
  · intro x hx
    exact mem_eraseS.mpr ⟨hwf.us_fr x hx, fun he => hwf.us_dr x hx (he ▸ hdr)⟩
  · intro x hx
    exact mem_eraseS.mpr ⟨hwf.ud_fr x hx, fun he => hwf.ud_dr x hx (he ▸ hdr)⟩

theorem wf_drainDisc1_unmet {st : State} {d : Desc} (hwf : WF st)
    (hdr : d ∉ st.drivers) (hs : lookupA st.supply_map d = none)
    (hd : lookupA st.demand_map d = none) : WF (drainDisc1 st d) := by
  rw [drainDisc1_unmet st d hdr hs hd]
  refine ⟨hwf.sm_nd, hwf.dm_nd, nodup_eraseS hwf.us_nd d,
    nodup_eraseS hwf.ud_nd d, hwf.dr_nd, hwf.sm_dm, ?_, ?_, hwf.sm_dr,
    ?_, ?_, hwf.dm_dr, ?_, ?_, ?_, hwf.sym_s, hwf.sym_d, ?_, ?_, ?_, ?_,
    hwf.none_sm, hwf.none_dm, ?_, ?_⟩
  · intro x hx hc
    exact hwf.sm_us x hx (mem_eraseS.mp hc).1
  · intro x hx hc
    exact hwf.sm_ud x hx (mem_eraseS.mp hc).1
  · intro x hx hc
    exact hwf.dm_us x hx (mem_eraseS.mp hc).1
  · intro x hx hc
    exact hwf.dm_ud x hx (mem_eraseS.mp hc).1
  · intro x hx hc
    exact hwf.us_ud x (mem_eraseS.mp hx).1 (mem_eraseS.mp hc).1
  · intro x hx
    exact hwf.us_dr x (mem_eraseS.mp hx).1
  · intro x hx
    exact hwf.ud_dr x (mem_eraseS.mp hx).1
  · intro x hx
    rcases hwf.fr_mem x (mem_eraseS.mp hx).1 with h1 | h1
    · exact Or.inl (mem_eraseS.mpr ⟨h1, (mem_eraseS.mp hx).2⟩)
    · exact Or.inr (mem_eraseS.mpr ⟨h1, (mem_eraseS.mp hx).2⟩)
  · intro x hx
    exact mem_eraseS.mpr ⟨hwf.us_fr x (mem_eraseS.mp hx).1,
      (mem_eraseS.mp hx).2⟩
  · intro x hx
    exact mem_eraseS.mpr ⟨hwf.ud_fr x (mem_eraseS.mp hx).1,
      (mem_eraseS.mp hx).2⟩
  · rcases hwf.meet with h1 | h1
    · exact Or.inl (by rw [h1]; rfl)
    · exact Or.inr (by rw [h1]; rfl)
  · intro hc
    exact hwf.none_us (mem_eraseS.mp hc).1
  · intro hc
    exact hwf.none_ud (mem_eraseS.mp hc).1

theorem wf_drainDisc1_supply {st : State} {d o : Desc} (hwf : WF st)
    (hdr : d ∉ st.drivers) (hs : lookupA st.supply_map d = some o) :
    WF (drainDisc1 st d) := by
  rw [drainDisc1_supply st d o hdr hs]
  have hdsm : d ∈ keysA st.supply_map := keysA_mem_of_lookupA hs
  by_cases ho : o = NO_DESCRIPTOR
  · subst ho
    rw [finishDisc_none]
    refine ⟨nodup_keysA_eraseA d hwf.sm_nd, hwf.dm_nd, hwf.us_nd,
      hwf.ud_nd, hwf.dr_nd, ?_, ?_, ?_, ?_, hwf.dm_us, hwf.dm_ud,
      hwf.dm_dr, hwf.us_ud, hwf.us_dr, hwf.ud_dr, ?_, ?_, ?_, ?_, ?_,
      hwf.meet, ?_, hwf.none_dm, hwf.none_us, hwf.none_ud⟩
    · intro x hx
      exact hwf.sm_dm x (mem_keysA_eraseA.mp hx).1
    · intro x hx
      exact hwf.sm_us x (mem_keysA_eraseA.mp hx).1
    · intro x hx
      exact hwf.sm_ud x (mem_keysA_eraseA.mp hx).1
    · intro x hx
      exact hwf.sm_dr x (mem_keysA_eraseA.mp hx).1
    · intro p hp hpne
      exact hwf.sym_s p (mem_eraseA.mp hp).1 hpne
    · intro q hq hqne
      have hold := hwf.sym_d q hq hqne
      have hqd : q.2 ≠ d := by
        intro he
        rw [he, hs] at hold
        exact hwf.none_dm ((Option.some.inj hold) ▸ mem_keysA_of_mem hq)
      rw [lookupA_eraseA_ne _ d q.2 hqd]
      exact hold
    · intro x hx
      exact hwf.fr_mem x (mem_eraseS.mp hx).1
    · intro x hx
      exact mem_eraseS.mpr ⟨hwf.us_fr x hx,
        fun he => hwf.sm_us d hdsm (he ▸ hx)⟩
    · intro x hx
      exact mem_eraseS.mpr ⟨hwf.ud_fr x hx,
        fun he => hwf.sm_ud d hdsm (he ▸ hx)⟩
    · intro hc
      exact hwf.none_sm (mem_keysA_eraseA.mp hc).1
  · have hmem : (d, o) ∈ st.supply_map := mem_of_lookupA hs
    have hdm : lookupA st.demand_map o = some d := hwf.sym_s (d, o) hmem ho
    have hodm : o ∈ keysA st.demand_map := keysA_mem_of_lookupA hdm
    have hosm : o ∉ keysA (eraseA st.supply_map d) := fun hc =>
      hwf.sm_dm o (mem_keysA_eraseA.mp hc).1 hodm
    rw [finishDisc_demand
      { st with timestamp_map := eraseA st.timestamp_map d
                frozen := eraseS st.frozen d
                supply_map := eraseA st.supply_map d } o ho hosm hodm]
    have hk : keysA (insertA st.demand_map o NO_DESCRIPTOR) =
        keysA st.demand_map := keysA_insertA_of_mem _ hodm
    refine ⟨nodup_keysA_eraseA d hwf.sm_nd, ?_, hwf.us_nd, hwf.ud_nd,
      hwf.dr_nd, ?_, ?_, ?_, ?_, ?_, ?_, ?_, hwf.us_ud, hwf.us_dr,
      hwf.ud_dr, ?_, ?_, ?_, ?_, ?_, hwf.meet, ?_, ?_, hwf.none_us,
      hwf.none_ud⟩
    · rw [hk]
      exact hwf.dm_nd
    · intro x hx hc
      rw [hk] at hc
      exact hwf.sm_dm x (mem_keysA_eraseA.mp hx).1 hc
    · intro x hx
      exact hwf.sm_us x (mem_keysA_eraseA.mp hx).1
    · intro x hx
      exact hwf.sm_ud x (mem_keysA_eraseA.mp hx).1
    · intro x hx
      exact hwf.sm_dr x (mem_keysA_eraseA.mp hx).1
    · intro x hx
      rw [hk] at hx
      exact hwf.dm_us x hx
    · intro x hx
      rw [hk] at hx
      exact hwf.dm_ud x hx
    · intro x hx
      rw [hk] at hx
      exact hwf.dm_dr x hx
    · intro p hp hpne
      have hpm := mem_eraseA.mp hp
      have hold := hwf.sym_s p hpm.1 hpne
      by_cases hpo : p.2 = o
      · exfalso
        rw [hpo, hdm] at hold
        exact hpm.2 (Option.some.inj hold).symm
      · rw [lookupA_insertA_ne _ o p.2 _ hpo]
        exact hold
    · intro q hq hqne
      rcases (mem_insertA hwf.dm_nd).mp hq with rfl | ⟨hqm, hqo⟩
      · exact absurd rfl hqne
      · have hold := hwf.sym_d q hqm hqne
        have hqd : q.2 ≠ d := by
          intro he
          rw [he, hs] at hold
          exact hqo (Option.some.inj hold).symm
        rw [lookupA_eraseA_ne _ d q.2 hqd]
        exact hold
    · intro x hx
      exact hwf.fr_mem x (mem_eraseS.mp hx).1
    · intro x hx
      exact mem_eraseS.mpr ⟨hwf.us_fr x hx,
        fun he => hwf.sm_us d hdsm (he ▸ hx)⟩
    · intro x hx
      exact mem_eraseS.mpr ⟨hwf.ud_fr x hx,
        fun he => hwf.sm_ud d hdsm (he ▸ hx)⟩
    · intro hc
      exact hwf.none_sm (mem_keysA_eraseA.mp hc).1
    · intro hc
      rw [hk] at hc
      exact hwf.none_dm hc

theorem wf_drainDisc1_demand {st : State} {d o : Desc} (hwf : WF st)
    (hdr : d ∉ st.drivers) (hs : lookupA st.supply_map d = none)
    (hd : lookupA st.demand_map d = some o) : WF (drainDisc1 st d) := by
  rw [drainDisc1_demand st d o hdr hs hd]
  have hddm : d ∈ keysA st.demand_map := keysA_mem_of_lookupA hd
  by_cases ho : o = NO_DESCRIPTOR
  · subst ho
    rw [finishDisc_none]
    refine ⟨hwf.sm_nd, nodup_keysA_eraseA d hwf.dm_nd, hwf.us_nd,
      hwf.ud_nd, hwf.dr_nd, ?_, hwf.sm_us, hwf.sm_ud, hwf.sm_dr, ?_, ?_,
      ?_, hwf.us_ud, hwf.us_dr, hwf.ud_dr, ?_, ?_, ?_, ?_, ?_, hwf.meet,
      hwf.none_sm, ?_, hwf.none_us, hwf.none_ud⟩
    · intro x hx hc
      exact hwf.sm_dm x hx (mem_keysA_eraseA.mp hc).1
    · intro x hx
      exact hwf.dm_us x (mem_keysA_eraseA.mp hx).1
    · intro x hx
      exact hwf.dm_ud x (mem_keysA_eraseA.mp hx).1
    · intro x hx
      exact hwf.dm_dr x (mem_keysA_eraseA.mp hx).1
    · intro p hp hpne
      have hold := hwf.sym_s p hp hpne
      have hpd : p.2 ≠ d := by
        intro he
        rw [he, hd] at hold
        exact hwf.none_sm ((Option.some.inj hold) ▸ mem_keysA_of_mem hp)
      rw [lookupA_eraseA_ne _ d p.2 hpd]
      exact hold
    · intro q hq hqne
      exact hwf.sym_d q (mem_eraseA.mp hq).1 hqne
    · intro x hx
      exact hwf.fr_mem x (mem_eraseS.mp hx).1
    · intro x hx
      exact mem_eraseS.mpr ⟨hwf.us_fr x hx,
        fun he => hwf.dm_us d hddm (he ▸ hx)⟩
    · intro x hx
      exact mem_eraseS.mpr ⟨hwf.ud_fr x hx,
        fun he => hwf.dm_ud d hddm (he ▸ hx)⟩
    · intro hc
      exact hwf.none_dm (mem_keysA_eraseA.mp hc).1
  · have hmem : (d, o) ∈ st.demand_map := mem_of_lookupA hd
    have hsm_o : lookupA st.supply_map o = some d := hwf.sym_d (d, o) hmem ho
    have hosm : o ∈ keysA st.supply_map := keysA_mem_of_lookupA hsm_o
    rw [finishDisc_supply
      { st with timestamp_map := eraseA st.timestamp_map d
                frozen := eraseS st.frozen d
                demand_map := eraseA st.demand_map d } o ho hosm]
    have hk : keysA (insertA st.supply_map o NO_DESCRIPTOR) =
        keysA st.supply_map := keysA_insertA_of_mem _ hosm
    refine ⟨?_, nodup_keysA_eraseA d hwf.dm_nd, hwf.us_nd, hwf.ud_nd,
      hwf.dr_nd, ?_, ?_, ?_, ?_, ?_, ?_, ?_, hwf.us_ud, hwf.us_dr,
      hwf.ud_dr, ?_, ?_, ?_, ?_, ?_, hwf.meet, ?_, ?_, hwf.none_us,
      hwf.none_ud⟩
    · rw [hk]
      exact hwf.sm_nd
    · intro x hx hc
      rw [hk] at hx
      exact hwf.sm_dm x hx (mem_keysA_eraseA.mp hc).1
    · intro x hx
      rw [hk] at hx
      exact hwf.sm_us x hx
    · intro x hx
      rw [hk] at hx
      exact hwf.sm_ud x hx
    · intro x hx
      rw [hk] at hx
      exact hwf.sm_dr x hx
    · intro x hx
      exact hwf.dm_us x (mem_keysA_eraseA.mp hx).1
    · intro x hx
      exact hwf.dm_ud x (mem_keysA_eraseA.mp hx).1
    · intro x hx
      exact hwf.dm_dr x (mem_keysA_eraseA.mp hx).1
    · intro p hp hpne
      rcases (mem_insertA hwf.sm_nd).mp hp with rfl | ⟨hpm, hpo⟩
      · exact absurd rfl hpne
      · have hold := hwf.sym_s p hpm hpne
        have hpd : p.2 ≠ d := by
          intro he
          rw [he, hd] at hold
          exact hpo (Option.some.inj hold).symm
        rw [lookupA_eraseA_ne _ d p.2 hpd]
        exact hold
    · intro q hq hqne
      have hqm := mem_eraseA.mp hq
      have hold := hwf.sym_d q hqm.1 hqne
      by_cases hqo : q.2 = o
      · exfalso
        rw [hqo, hsm_o] at hold
        exact hqm.2 (Option.some.inj hold).symm
      · rw [lookupA_insertA_ne _ o q.2 _ hqo]
        exact hold
    · intro x hx
      exact hwf.fr_mem x (mem_eraseS.mp hx).1
    · intro x hx
      exact mem_eraseS.mpr ⟨hwf.us_fr x hx,
        fun he => hwf.dm_us d hddm (he ▸ hx)⟩
    · intro x hx
      exact mem_eraseS.mpr ⟨hwf.ud_fr x hx,
        fun he => hwf.dm_ud d hddm (he ▸ hx)⟩
    · intro hc
      rw [hk] at hc
      exact hwf.none_sm hc
    · intro hc
      exact hwf.none_dm (mem_keysA_eraseA.mp hc).1

theorem wf_drainDisc1 {st : State} (d : Desc) (hwf : WF st) :
    WF (drainDisc1 st d) := by
  by_cases hdr : d ∈ st.drivers
  · exact wf_drainDisc1_driver hwf hdr
  · rcases hs : lookupA st.supply_map d with _ | o
    · rcases hd : lookupA st.demand_map d with _ | o
      · exact wf_drainDisc1_unmet hwf hdr hs hd
      · exact wf_drainDisc1_demand hwf hdr hs hd
    · exact wf_drainDisc1_supply hwf hdr hs

theorem wf_drainDisc {st : State} (l : List Desc) (hwf : WF st) :
    WF (drainDisc st l) := by
  induction l generalizing st with
  | nil => exact hwf
  | cons d r ih => exact ih (wf_drainDisc1 d hwf)

theorem tracked_drainDisc1 {st : State} {d x : Desc} (hwf : WF st)
    (h : Tracked (drainDisc1 st d) x) : Tracked st x := by
  unfold Tracked at h ⊢
  by_cases hdr : d ∈ st.drivers
  · rw [drainDisc1_driver st d hdr] at h
    rcases h with h | h | h | h | h
    · exact Or.inl h
    · exact Or.inr (Or.inl h)
    · exact Or.inr (Or.inr (Or.inl h))
    · exact Or.inr (Or.inr (Or.inr (Or.inl h)))
    · exact Or.inr (Or.inr (Or.inr (Or.inr (mem_eraseS.mp h).1)))
  · rcases hs : lookupA st.supply_map d with _ | o
    · rcases hd : lookupA st.demand_map d with _ | o
      · rw [drainDisc1_unmet st d hdr hs hd] at h
        rcases h with h | h | h | h | h
        · exact Or.inl h
        · exact Or.inr (Or.inl h)
        · exact Or.inr (Or.inr (Or.inl (mem_eraseS.mp h).1))
        · exact Or.inr (Or.inr (Or.inr (Or.inl (mem_eraseS.mp h).1)))
        · exact Or.inr (Or.inr (Or.inr (Or.inr h)))
      · rw [drainDisc1_demand st d o hdr hs hd] at h
        by_cases ho : o = NO_DESCRIPTOR
        · subst ho
          rw [finishDisc_none] at h
          rcases h with h | h | h | h | h
          · exact Or.inl h
          · exact Or.inr (Or.inl (mem_keysA_eraseA.mp h).1)
          · exact Or.inr (Or.inr (Or.inl h))
          · exact Or.inr (Or.inr (Or.inr (Or.inl h)))
          · exact Or.inr (Or.inr (Or.inr (Or.inr h)))
        · have hmem : (d, o) ∈ st.demand_map := mem_of_lookupA hd
          have hsm_o : lookupA st.supply_map o = some d :=
            hwf.sym_d (d, o) hmem ho
          have hosm : o ∈ keysA st.supply_map := keysA_mem_of_lookupA hsm_o
          rw [finishDisc_supply
            { st with timestamp_map := eraseA st.timestamp_map d
                      frozen := eraseS st.frozen d
                      demand_map := eraseA st.demand_map d } o ho hosm] at h
          have hk : keysA (insertA st.supply_map o NO_DESCRIPTOR) =
              keysA st.supply_map := keysA_insertA_of_mem _ hosm
          rcases h with h | h | h | h | h
          · rw [hk] at h
            exact Or.inl h
          · exact Or.inr (Or.inl (mem_keysA_eraseA.mp h).1)
          · exact Or.inr (Or.inr (Or.inl h))
          · exact Or.inr (Or.inr (Or.inr (Or.inl h)))
          · exact Or.inr (Or.inr (Or.inr (Or.inr h)))
    · rw [drainDisc1_supply st d o hdr hs] at h
      by_cases ho : o = NO_DESCRIPTOR
      · subst ho
        rw [finishDisc_none] at h
        rcases h with h | h | h | h | h
        · exact Or.inl (mem_keysA_eraseA.mp h).1
        · exact Or.inr (Or.inl h)
        · exact Or.inr (Or.inr (Or.inl h))
        · exact Or.inr (Or.inr (Or.inr (Or.inl h)))
        · exact Or.inr (Or.inr (Or.inr (Or.inr h)))
      · have hmem : (d, o) ∈ st.supply_map := mem_of_lookupA hs
        have hdm : lookupA st.demand_map o = some d :=
          hwf.sym_s (d, o) hmem ho
        have hodm : o ∈ keysA st.demand_map := keysA_mem_of_lookupA hdm
        have hosm : o ∉ keysA (eraseA st.supply_map d) := fun hc =>
          hwf.sm_dm o (mem_keysA_eraseA.mp hc).1 hodm
        rw [finishDisc_demand
          { st with timestamp_map := eraseA st.timestamp_map d
                    frozen := eraseS st.frozen d
                    supply_map := eraseA st.supply_map d } o ho hosm hodm]
          at h
        have hk : keysA (insertA st.demand_map o NO_DESCRIPTOR) =
            keysA st.demand_map := keysA_insertA_of_mem _ hodm
        rcases h with h | h | h | h | h
        · exact Or.inl (mem_keysA_eraseA.mp h).1
        · rw [hk] at h
          exact Or.inr (Or.inl h)
        · exact Or.inr (Or.inr (Or.inl h))
        · exact Or.inr (Or.inr (Or.inr (Or.inl h)))
        · exact Or.inr (Or.inr (Or.inr (Or.inr h)))

theorem tracked_drainDisc {st : State} {x : Desc} (l : List Desc) (hwf : WF st)
    (h : Tracked (drainDisc st l) x) : Tracked st x := by
  induction l generalizing st with
  | nil => exact h
  | cons d r ih =>
    exact tracked_drainDisc1 hwf (ih (wf_drainDisc1 d hwf) h)

/-! ### Preservation of the invariant by the new-connection drain -/

theorem wf_drainConn1 {cfg : Config} {ts : Int} {st : State} {nd : Nat}
    {d lst : Desc} (hwf : WF st) (hne : d ≠ NO_DESCRIPTOR)
    (hfr : ¬ Tracked st d) :
    WF (drainConn1 cfg ts (st, nd) (d, lst)).1 := by
  have hd_sm : d ∉ keysA st.supply_map := fun hc => hfr (Or.inl hc)
  have hd_dm : d ∉ keysA st.demand_map := fun hc => hfr (Or.inr (Or.inl hc))
  have hd_us : d ∉ st.unmet_supply := fun hc =>
    hfr (Or.inr (Or.inr (Or.inl hc)))
  have hd_ud : d ∉ st.unmet_demand := fun hc =>
    hfr (Or.inr (Or.inr (Or.inr (Or.inl hc))))
  have hd_dr : d ∉ st.drivers := fun hc =>
    hfr (Or.inr (Or.inr (Or.inr (Or.inr hc))))
  by_cases hl : lst = cfg.supply_descriptor
  · rcases hud : st.unmet_demand with _ | ⟨o, rest⟩
    · rw [drainConn1_supply_wait cfg ts st nd d lst hl hud]
      refine ⟨hwf.sm_nd, hwf.dm_nd, nodup_insertS hwf.us_nd d, hwf.ud_nd,
        hwf.dr_nd, hwf.sm_dm, ?_, hwf.sm_ud, hwf.sm_dr, ?_, hwf.dm_ud,
        hwf.dm_dr, ?_, ?_, hwf.ud_dr, hwf.sym_s, hwf.sym_d, ?_, ?_, ?_,
        Or.inr hud, hwf.none_sm, hwf.none_dm, ?_, hwf.none_ud⟩
      · intro x hx hc
        rcases mem_insertS.mp hc with hc1 | rfl
        · exact hwf.sm_us x hx hc1
        · exact hd_sm hx
      · intro x hx hc
        rcases mem_insertS.mp hc with hc1 | rfl
        · exact hwf.dm_us x hx hc1
        · exact hd_dm hx
      · intro x hx
        rcases mem_insertS.mp hx with hx1 | rfl
        · exact hwf.us_ud x hx1
        · exact hd_ud
      · intro x hx hc
        rcases mem_insertS.mp hx with hx1 | rfl
        · exact hwf.us_dr x hx1 hc
        · exact hd_dr hc
      · intro x hx
        rcases mem_insertS.mp hx with hx1 | rfl
        · rcases hwf.fr_mem x hx1 with h1 | h1
          · exact Or.inl (mem_insertS.mpr (Or.inl h1))
          · exact Or.inr h1
        · exact Or.inl (mem_insertS.mpr (Or.inr rfl))
      · intro x hx
        rcases mem_insertS.mp hx with hx1 | rfl
        · exact mem_insertS.mpr (Or.inl (hwf.us_fr x hx1))
        · exact mem_insertS.mpr (Or.inr rfl)
      · intro x hx
        exact mem_insertS.mpr (Or.inl (hwf.ud_fr x hx))
      · intro hc
        rcases mem_insertS.mp hc with hc1 | hc1
        · exact hwf.none_us hc1
        · exact hne hc1.symm
    · rw [drainConn1_supply_pair cfg ts st nd d lst o rest hl hud]
      have ho_ud : o ∈ st.unmet_demand := by
        rw [hud]
        exact List.mem_cons_self o rest
      have hrest : ∀ x ∈ rest, x ∈ st.unmet_demand := by
        intro x hx
        rw [hud]
        exact List.mem_cons_of_mem o hx
      have ho_sm : o ∉ keysA st.supply_map := fun hc => hwf.sm_ud o hc ho_ud
      have ho_dm : o ∉ keysA st.demand_map := fun hc => hwf.dm_ud o hc ho_ud
      have ho_us : o ∉ st.unmet_supply := fun hc => hwf.us_ud o hc ho_ud
      have ho_dr : o ∉ st.drivers := hwf.ud_dr o ho_ud
      have ho_ne : o ≠ NO_DESCRIPTOR := fun he => hwf.none_ud (he ▸ ho_ud)
      have ho_fr : o ∈ st.frozen := hwf.ud_fr o ho_ud
      have hdo : d ≠ o := fun he => hd_ud (he ▸ ho_ud)
      have hrest_nd : o ∉ rest ∧ rest.Nodup :=
        List.nodup_cons.mp (hud ▸ hwf.ud_nd)
      refine ⟨nodup_keysA_insertA o hwf.sm_nd, nodup_keysA_insertA d
        hwf.dm_nd, hwf.us_nd, hrest_nd.2, hwf.dr_nd, ?_, ?_, ?_, ?_, ?_,
        ?_, ?_, ?_, hwf.us_dr, ?_, ?_, ?_, ?_, ?_, ?_, ?_, ?_, ?_,
        hwf.none_us, ?_⟩
      · intro x hx hc
        rcases mem_keysA_insertA.mp hx with hx1 | rfl
        · rcases mem_keysA_insertA.mp hc with hc1 | rfl
          · exact hwf.sm_dm x hx1 hc1
          · exact ho_sm hx1
        · rcases mem_keysA_insertA.mp hc with hc1 | hc1
          · exact hd_dm hc1
          · exact hdo hc1
      · intro x hx hc
        rcases mem_keysA_insertA.mp hx with hx1 | rfl
        · exact hwf.sm_us x hx1 hc
        · exact hd_us hc
      · intro x hx hc
        rcases mem_keysA_insertA.mp hx with hx1 | rfl
        · exact hwf.sm_ud x hx1 (hrest x hc)
        · exact hd_ud (hrest x hc)
      · intro x hx hc
        rcases mem_keysA_insertA.mp hx with hx1 | rfl
        · exact hwf.sm_dr x hx1 hc
        · exact hd_dr hc
      · intro x hx hc
        rcases mem_keysA_insertA.mp hx with hx1 | rfl
        · exact hwf.dm_us x hx1 hc
        · exact ho_us hc
      · intro x hx hc
        rcases mem_keysA_insertA.mp hx with hx1 | rfl
        · exact hwf.dm_ud x hx1 (hrest x hc)
        · exact hrest_nd.1 hc
      · intro x hx hc
        rcases mem_keysA_insertA.mp hx with hx1 | rfl
        · exact hwf.dm_dr x hx1 hc
        · exact ho_dr hc
      · intro x hx hc
        exact hwf.us_ud x hx (hrest x hc)
      · intro x hx
        exact hwf.ud_dr x (hrest x hx)
      · intro p hp hpne
        rcases (mem_insertA hwf.sm_nd).mp hp with rfl | ⟨hpm, hpd⟩
        · exact lookupA_insertA_self st.demand_map o d
        · have hold := hwf.sym_s p hpm hpne
          by_cases hpo : p.2 = o
          · exfalso
            rw [hpo] at hold
            exact ho_dm (keysA_mem_of_lookupA hold)
          · rw [lookupA_insertA_ne _ o p.2 _ hpo]
            exact hold
      · intro q hq hqne
        rcases (mem_insertA hwf.dm_nd).mp hq with rfl | ⟨hqm, hqo⟩
        · exact lookupA_insertA_self st.supply_map d o
        · have hold := hwf.sym_d q hqm hqne
          by_cases hqd : q.2 = d
          · exfalso
            rw [hqd] at hold
            exact hd_sm (keysA_mem_of_lookupA hold)
          · rw [lookupA_insertA_ne _ d q.2 _ hqd]
            exact hold
      · intro x hx
        have hx1 := mem_eraseS.mp hx
        rcases hwf.fr_mem x hx1.1 with h1 | h1
        · exact Or.inl h1
        · rw [hud] at h1
          rcases List.mem_cons.mp h1 with rfl | h2
          · exact absurd rfl hx1.2
          · exact Or.inr h2
      · intro x hx
        exact mem_eraseS.mpr ⟨hwf.us_fr x hx, fun he => ho_us (he ▸ hx)⟩
      · intro x hx
        exact mem_eraseS.mpr ⟨hwf.ud_fr x (hrest x hx),
          fun he => hrest_nd.1 (he ▸ hx)⟩
      · rcases hwf.meet with h1 | h1
        · exact Or.inl h1
        · exact absurd (h1 ▸ ho_ud) (List.not_mem_nil o)
      · intro hc
        rcases mem_keysA_insertA.mp hc with hc1 | hc1
        · exact hwf.none_sm hc1
        · exact hne hc1.symm
      · intro hc
        rcases mem_keysA_insertA.mp hc with hc1 | hc1
        · exact hwf.none_dm hc1
        · exact ho_ne hc1.symm
      · intro hc
        exact hwf.none_ud (hrest _ hc)
  · by_cases hl2 : lst = cfg.demand_descriptor
    · rcases hus : st.unmet_supply with _ | ⟨o, rest⟩
      · rw [drainConn1_demand_wait cfg ts st nd d lst hl hl2 hus]
        refine ⟨hwf.sm_nd, hwf.dm_nd, hwf.us_nd, nodup_insertS hwf.ud_nd d,
          hwf.dr_nd, hwf.sm_dm, hwf.sm_us, ?_, hwf.sm_dr, hwf.dm_us, ?_,
          hwf.dm_dr, ?_, hwf.us_dr, ?_, hwf.sym_s, hwf.sym_d, ?_, ?_, ?_,
          Or.inl hus, hwf.none_sm, hwf.none_dm, hwf.none_us, ?_⟩
        · intro x hx hc
          rcases mem_insertS.mp hc with hc1 | rfl
          · exact hwf.sm_ud x hx hc1
          · exact hd_sm hx
        · intro x hx hc
          rcases mem_insertS.mp hc with hc1 | rfl
          · exact hwf.dm_ud x hx hc1
          · exact hd_dm hx
        · intro x hx hc
          rcases mem_insertS.mp hc with hc1 | rfl
          · exact hwf.us_ud x hx hc1
          · exact hd_us hx
        · intro x hx hc
          rcases mem_insertS.mp hx with hx1 | rfl
          · exact hwf.ud_dr x hx1 hc
          · exact hd_dr hc
        · intro x hx
          rcases mem_insertS.mp hx with hx1 | rfl
          · rcases hwf.fr_mem x hx1 with h1 | h1
            · exact Or.inl h1
            · exact Or.inr (mem_insertS.mpr (Or.inl h1))
          · exact Or.inr (mem_insertS.mpr (Or.inr rfl))
        · intro x hx
          exact mem_insertS.mpr (Or.inl (hwf.us_fr x hx))
        · intro x hx
          rcases mem_insertS.mp hx with hx1 | rfl
          · exact mem_insertS.mpr (Or.inl (hwf.ud_fr x hx1))
          · exact mem_insertS.mpr (Or.inr rfl)
        · intro hc
          rcases mem_insertS.mp hc with hc1 | hc1
          · exact hwf.none_ud hc1
          · exact hne hc1.symm
      · rw [drainConn1_demand_pair cfg ts st nd d lst o rest hl hl2 hus]
        have ho_us : o ∈ st.unmet_supply := by
          rw [hus]
          exact List.mem_cons_self o rest
        have hrest : ∀ x ∈ rest, x ∈ st.unmet_supply := by
          intro x hx
          rw [hus]
          exact List.mem_cons_of_mem o hx
        have ho_sm : o ∉ keysA st.supply_map := fun hc =>
          hwf.sm_us o hc ho_us
        have ho_dm : o ∉ keysA st.demand_map := fun hc =>
          hwf.dm_us o hc ho_us
        have ho_ud : o ∉ st.unmet_demand := hwf.us_ud o ho_us
        have ho_dr : o ∉ st.drivers := hwf.us_dr o ho_us
        have ho_ne : o ≠ NO_DESCRIPTOR := fun he => hwf.none_us (he ▸ ho_us)
        have ho_fr : o ∈ st.frozen := hwf.us_fr o ho_us
        have hdo : d ≠ o := fun he => hd_us (he ▸ ho_us)
        have hrest_nd : o ∉ rest ∧ rest.Nodup :=
          List.nodup_cons.mp (hus ▸ hwf.us_nd)
        refine ⟨nodup_keysA_insertA d hwf.sm_nd, nodup_keysA_insertA o
          hwf.dm_nd, hrest_nd.2, hwf.ud_nd, hwf.dr_nd, ?_, ?_, ?_, ?_, ?_,
          ?_, ?_, ?_, ?_, hwf.ud_dr, ?_, ?_, ?_, ?_, ?_, ?_, ?_, ?_,
          ?_, hwf.none_ud⟩
        · intro x hx hc
          rcases mem_keysA_insertA.mp hx with hx1 | rfl
          · rcases mem_keysA_insertA.mp hc with hc1 | rfl
            · exact hwf.sm_dm x hx1 hc1
            · exact hd_sm hx1
          · rcases mem_keysA_insertA.mp hc with hc1 | hc1
            · exact ho_dm hc1
            · exact hdo hc1.symm
        · intro x hx hc
          rcases mem_keysA_insertA.mp hx with hx1 | rfl
          · exact hwf.sm_us x hx1 (hrest x hc)
          · exact hrest_nd.1 hc
        · intro x hx hc
          rcases mem_keysA_insertA.mp hx with hx1 | rfl
          · exact hwf.sm_ud x hx1 hc
          · exact ho_ud hc
        · intro x hx hc
          rcases mem_keysA_insertA.mp hx with hx1 | rfl
          · exact hwf.sm_dr x hx1 hc
          · exact ho_dr hc
        · intro x hx hc
          rcases mem_keysA_insertA.mp hx with hx1 | rfl
          · exact hwf.dm_us x hx1 (hrest x hc)
          · exact hd_us (hrest x hc)
        · intro x hx hc
          rcases mem_keysA_insertA.mp hx with hx1 | rfl
          · exact hwf.dm_ud x hx1 hc
          · exact hd_ud hc
        · intro x hx hc
          rcases mem_keysA_insertA.mp hx with hx1 | rfl
          · exact hwf.dm_dr x hx1 hc
          · exact hd_dr hc
        · intro x hx hc
          exact hwf.us_ud x (hrest x hx) hc
        · intro x hx
          exact hwf.us_dr x (hrest x hx)
        · intro p hp hpne
          rcases (mem_insertA hwf.sm_nd).mp hp with rfl | ⟨hpm, hpo⟩
          · exact lookupA_insertA_self st.demand_map d o
          · have hold := hwf.sym_s p hpm hpne
            by_cases hpd : p.2 = d
            · exfalso
              rw [hpd] at hold
              exact hd_dm (keysA_mem_of_lookupA hold)
            · rw [lookupA_insertA_ne _ d p.2 _ hpd]
              exact hold
        · intro q hq hqne
          rcases (mem_insertA hwf.dm_nd).mp hq with rfl | ⟨hqm, hqd⟩
          · exact lookupA_insertA_self st.supply_map o d
          · have hold := hwf.sym_d q hqm hqne
            by_cases hqo : q.2 = o
            · exfalso
              rw [hqo] at hold
              exact ho_sm (keysA_mem_of_lookupA hold)
            · rw [lookupA_insertA_ne _ o q.2 _ hqo]
              exact hold
        · intro x hx
          have hx1 := mem_eraseS.mp hx
          rcases hwf.fr_mem x hx1.1 with h1 | h1
          · rw [hus] at h1
            rcases List.mem_cons.mp h1 with rfl | h2
            · exact absurd rfl hx1.2
            · exact Or.inl h2
          · exact Or.inr h1
        · intro x hx
          exact mem_eraseS.mpr ⟨hwf.us_fr x (hrest x hx),
            fun he => hrest_nd.1 (he ▸ hx)⟩
        · intro x hx
          exact mem_eraseS.mpr ⟨hwf.ud_fr x hx, fun he => ho_ud (he ▸ hx)⟩
        · rcases hwf.meet with h1 | h1
          · exact absurd (h1 ▸ ho_us) (List.not_mem_nil o)
          · exact Or.inr h1
        · intro hc
          rcases mem_keysA_insertA.mp hc with hc1 | hc1
          · exact hwf.none_sm hc1
          · exact ho_ne hc1.symm
        · intro hc
          rcases mem_keysA_insertA.mp hc with hc1 | hc1
          · exact hwf.none_dm hc1
          · exact hne hc1.symm
        · intro hc
          exact hwf.none_us (hrest _ hc)
    · by_cases hl3 : lst = cfg.driver_descriptor ∧
        cfg.driver_descriptor ≠ NO_DESCRIPTOR
      · rw [drainConn1_driver cfg ts st nd d lst hl hl2 hl3.1 hl3.2]
        refine ⟨hwf.sm_nd, hwf.dm_nd, hwf.us_nd, hwf.ud_nd,
          nodup_insertS hwf.dr_nd d, hwf.sm_dm, hwf.sm_us, hwf.sm_ud, ?_,
          hwf.dm_us, hwf.dm_ud, ?_, hwf.us_ud, ?_, ?_, hwf.sym_s,
          hwf.sym_d, hwf.fr_mem, hwf.us_fr, hwf.ud_fr, hwf.meet,
          hwf.none_sm, hwf.none_dm, hwf.none_us, hwf.none_ud⟩
        · intro x hx hc
          rcases mem_insertS.mp hc with hc1 | rfl
          · exact hwf.sm_dr x hx hc1
          · exact hd_sm hx
        · intro x hx hc
          rcases mem_insertS.mp hc with hc1 | rfl
          · exact hwf.dm_dr x hx hc1
          · exact hd_dm hx
        · intro x hx hc
          rcases mem_insertS.mp hc with hc1 | rfl
          · exact hwf.us_dr x hx hc1
          · exact hd_us hx
        · intro x hx hc
          rcases mem_insertS.mp hc with hc1 | rfl
          · exact hwf.ud_dr x hx hc1
          · exact hd_ud hx
      · rw [drainConn1_unknown cfg ts st nd d lst hl hl2 hl3]
        exact wf_congr hwf rfl rfl rfl rfl rfl rfl

theorem tracked_drainConn1 {cfg : Config} {ts : Int} {st : State} {nd : Nat}
    {d lst x : Desc}
    (h : Tracked (drainConn1 cfg ts (st, nd) (d, lst)).1 x) :
    Tracked st x ∨ x = d := by
  unfold Tracked at h ⊢
  by_cases hl : lst = cfg.supply_descriptor
  · by_cases hud : st.unmet_demand = []
    · rw [drainConn1_supply_wait cfg ts st nd d lst hl hud] at h
      rcases h with h | h | h | h | h
      · exact Or.inl (Or.inl h)
      · exact Or.inl (Or.inr (Or.inl h))
      · rcases mem_insertS.mp h with h1 | rfl
        · exact Or.inl (Or.inr (Or.inr (Or.inl h1)))
        · exact Or.inr rfl
      · exact Or.inl (Or.inr (Or.inr (Or.inr (Or.inl h))))
      · exact Or.inl (Or.inr (Or.inr (Or.inr (Or.inr h))))
    · obtain ⟨o, rest, hud2⟩ := List.exists_cons_of_ne_nil hud
      rw [drainConn1_supply_pair cfg ts st nd d lst o rest hl hud2] at h
      have ho_ud : o ∈ st.unmet_demand := by
        rw [hud2]
        exact List.mem_cons_self o rest
      rcases h with h | h | h | h | h
      · rcases mem_keysA_insertA.mp h with h1 | rfl
        · exact Or.inl (Or.inl h1)
        · exact Or.inr rfl
      · rcases mem_keysA_insertA.mp h with h1 | rfl
        · exact Or.inl (Or.inr (Or.inl h1))
        · exact Or.inl (Or.inr (Or.inr (Or.inr (Or.inl ho_ud))))
      · exact Or.inl (Or.inr (Or.inr (Or.inl h)))
      · refine Or.inl (Or.inr (Or.inr (Or.inr (Or.inl ?_))))
        rw [hud2]
        exact List.mem_cons_of_mem o h
      · exact Or.inl (Or.inr (Or.inr (Or.inr (Or.inr h))))
  · by_cases hl2 : lst = cfg.demand_descriptor
    · by_cases hus : st.unmet_supply = []
      · rw [drainConn1_demand_wait cfg ts st nd d lst hl hl2 hus] at h
        rcases h with h | h | h | h | h
        · exact Or.inl (Or.inl h)
        · exact Or.inl (Or.inr (Or.inl h))
        · exact Or.inl (Or.inr (Or.inr (Or.inl h)))
        · rcases mem_insertS.mp h with h1 | rfl
          · exact Or.inl (Or.inr (Or.inr (Or.inr (Or.inl h1))))
          · exact Or.inr rfl
        · exact Or.inl (Or.inr (Or.inr (Or.inr (Or.inr h))))
      · obtain ⟨o, rest, hus2⟩ := List.exists_cons_of_ne_nil hus
        rw [drainConn1_demand_pair cfg ts st nd d lst o rest hl hl2 hus2]
          at h
        have ho_us : o ∈ st.unmet_supply := by
          rw [hus2]
          exact List.mem_cons_self o rest
        rcases h with h | h | h | h | h
        · rcases mem_keysA_insertA.mp h with h1 | rfl
          · exact Or.inl (Or.inl h1)
          · exact Or.inl (Or.inr (Or.inr (Or.inl ho_us)))
        · rcases mem_keysA_insertA.mp h with h1 | rfl
          · exact Or.inl (Or.inr (Or.inl h1))
          · exact Or.inr rfl
        · refine Or.inl (Or.inr (Or.inr (Or.inl ?_)))
          rw [hus2]
          exact List.mem_cons_of_mem o h
        · exact Or.inl (Or.inr (Or.inr (Or.inr (Or.inl h))))
        · exact Or.inl (Or.inr (Or.inr (Or.inr (Or.inr h))))
    · by_cases hl3 : lst = cfg.driver_descriptor ∧
        cfg.driver_descriptor ≠ NO_DESCRIPTOR
      · rw [drainConn1_driver cfg ts st nd d lst hl hl2 hl3.1 hl3.2] at h
        rcases h with h | h | h | h | h
        · exact Or.inl (Or.inl h)
        · exact Or.inl (Or.inr (Or.inl h))
        · exact Or.inl (Or.inr (Or.inr (Or.inl h)))
        · exact Or.inl (Or.inr (Or.inr (Or.inr (Or.inl h))))
        · rcases mem_insertS.mp h with h1 | rfl
          · exact Or.inl (Or.inr (Or.inr (Or.inr (Or.inr h1))))
          · exact Or.inr rfl
      · rw [drainConn1_unknown cfg ts st nd d lst hl hl2 hl3] at h
        exact Or.inl h

theorem wf_drainConnFold {cfg : Config} {ts : Int} {st : State}
    {l : List (Desc × Desc)} (hwf : WF st)
    (hnd : (l.map Prod.fst).Nodup)
    (hfresh : ∀ c ∈ l, c.1 ≠ NO_DESCRIPTOR ∧ ¬ Tracked st c.1) (nd : Nat) :
    WF (l.foldl (drainConn1 cfg ts) (st, nd)).1 := by
  induction l generalizing st nd with
  | nil => exact hwf
  | cons c r ih =>
    obtain ⟨d, lst⟩ := c
    have hc := hfresh (d, lst) (List.mem_cons_self _ _)
    have hwf1 : WF (drainConn1 cfg ts (st, nd) (d, lst)).1 :=
      wf_drainConn1 hwf hc.1 hc.2
    rw [List.map_cons, List.nodup_cons] at hnd
    rw [List.foldl_cons]
    have hstep : drainConn1 cfg ts (st, nd) (d, lst) =
        ((drainConn1 cfg ts (st, nd) (d, lst)).1,
         (drainConn1 cfg ts (st, nd) (d, lst)).2) := rfl
    rw [hstep]
    refine ih hwf1 hnd.2 ?_ _
    intro c' hc'
    have hf := hfresh c' (List.mem_cons_of_mem _ hc')
    refine ⟨hf.1, fun ht => ?_⟩
    rcases tracked_drainConn1 ht with ht1 | ht1
    · exact hf.2 ht1
    · exact hnd.1 (ht1 ▸ List.mem_map.mpr ⟨c', hc', rfl⟩)

theorem wf_drainConn {cfg : Config} {ts : Int} {st : State}
    {l : List (Desc × Desc)} (hwf : WF st)
    (hnd : (l.map Prod.fst).Nodup)
    (hfresh : ∀ c ∈ l, c.1 ≠ NO_DESCRIPTOR ∧ ¬ Tracked st c.1) :
    WF (drainConn cfg ts st l).1 :=
  wf_drainConnFold hwf hnd hfresh 0

/-! ### The remaining phases do not touch the pairing containers -/

theorem pubFold_tables (cfg : Config) (ts : Int) (nd : Nat) (l : List Desc)
    (st : State) :
    (l.foldl (pub1 cfg ts nd) st).supply_map = st.supply_map ∧
    (l.foldl (pub1 cfg ts nd) st).demand_map = st.demand_map ∧
    (l.foldl (pub1 cfg ts nd) st).unmet_supply = st.unmet_supply ∧
    (l.foldl (pub1 cfg ts nd) st).unmet_demand = st.unmet_demand ∧
    (l.foldl (pub1 cfg ts nd) st).drivers = st.drivers ∧
    (l.foldl (pub1 cfg ts nd) st).frozen = st.frozen ∧
    (l.foldl (pub1 cfg ts nd) st).outgoing = st.outgoing ∧
    (l.foldl (pub1 cfg ts nd) st).disconnects = st.disconnects ∧
    (l.foldl (pub1 cfg ts nd) st).forbidden = st.forbidden ∧
    (l.foldl (pub1 cfg ts nd) st).terminated = st.terminated := by
  induction l generalizing st with
  | nil => exact ⟨rfl, rfl, rfl, rfl, rfl, rfl, rfl, rfl, rfl, rfl⟩
  | cons e r ih =>
    obtain ⟨a1, a2, a3, a4, a5, a6, a7, a8, a9, a10⟩ :=
      pub1_tables cfg ts nd st e
    obtain ⟨b1, b2, b3, b4, b5, b6, b7, b8, b9, b10⟩ :=
      ih (pub1 cfg ts nd st e)
    rw [List.foldl_cons]
    exact ⟨b1.trans a1, b2.trans a2, b3.trans a3, b4.trans a4, b5.trans a5,
      b6.trans a6, b7.trans a7, b8.trans a8, b9.trans a9, b10.trans a10⟩

theorem driverPublication_tables (cfg : Config) (ts : Int) (nd : Nat)
    (alarmed : Bool) (st : State) :
    (driverPublication cfg ts nd alarmed st).supply_map = st.supply_map ∧
    (driverPublication cfg ts nd alarmed st).demand_map = st.demand_map ∧
    (driverPublication cfg ts nd alarmed st).unmet_supply = st.unmet_supply ∧
    (driverPublication cfg ts nd alarmed st).unmet_demand = st.unmet_demand ∧
    (driverPublication cfg ts nd alarmed st).drivers = st.drivers ∧
    (driverPublication cfg ts nd alarmed st).frozen = st.frozen ∧
    (driverPublication cfg ts nd alarmed st).outgoing = st.outgoing ∧
    (driverPublication cfg ts nd alarmed st).disconnects = st.disconnects ∧
    (driverPublication cfg ts nd alarmed st).forbidden = st.forbidden ∧
    (driverPublication cfg ts nd alarmed st).terminated = st.terminated := by
  unfold driverPublication
  split
  · exact pubFold_tables cfg ts nd st.drivers st
  · exact ⟨rfl, rfl, rfl, rfl, rfl, rfl, rfl, rfl, rfl, rfl⟩

theorem incFold_tables (ts : Int) (l : List Desc) (st : State) :
    (drainIncoming ts st l).supply_map = st.supply_map ∧
    (drainIncoming ts st l).demand_map = st.demand_map ∧
    (drainIncoming ts st l).unmet_supply = st.unmet_supply ∧
    (drainIncoming ts st l).unmet_demand = st.unmet_demand ∧
    (drainIncoming ts st l).drivers = st.drivers ∧
    (drainIncoming ts st l).frozen = st.frozen ∧
    (drainIncoming ts st l).writes = st.writes ∧
    (drainIncoming ts st l).disconnects = st.disconnects ∧
    (drainIncoming ts st l).terminated = st.terminated := by
  induction l generalizing st with
  | nil => exact ⟨rfl, rfl, rfl, rfl, rfl, rfl, rfl, rfl, rfl⟩
  | cons e r ih =>
    obtain ⟨a1, a2, a3, a4, a5, a6, a7, a8, a9⟩ := inc1_tables ts st e
    obtain ⟨b1, b2, b3, b4, b5, b6, b7, b8, b9⟩ := ih (inc1 ts st e)
    unfold drainIncoming at b1 b2 b3 b4 b5 b6 b7 b8 b9 ⊢
    rw [List.foldl_cons]
    exact ⟨b1.trans a1, b2.trans a2, b3.trans a3, b4.trans a4, b5.trans a5,
      b6.trans a6, b7.trans a7, b8.trans a8, b9.trans a9⟩

theorem reapFold (cfg : Config) (ts : Int) (l : List (Desc × Int))
    (acc : State) :
    (l.foldl
      (fun a p =>
        if (cfg.idle_timeout : Int) ≤ ts - p.2 then
          { a with disconnects := a.disconnects ++ [p.1] }
        else a)
      acc) =
    { acc with disconnects := acc.disconnects ++
        (List.map Prod.fst
          (l.filter (fun p => decide ((cfg.idle_timeout : Int) ≤ ts - p.2)))) }
    := by
  induction l generalizing acc with
  | nil => simp
  | cons p r ih =>
    rw [List.foldl_cons]
    by_cases h : (cfg.idle_timeout : Int) ≤ ts - p.2
    · rw [if_pos h, ih]
      simp [h, List.filter_cons]
    · rw [if_neg h, ih]
      simp [h, List.filter_cons]

theorem idleReap_on (cfg : Config) (alarmed : Bool) (ts : Int) (st : State)
    (h : 0 < cfg.idle_timeout ∧ alarmed = true) :
    idleReap cfg alarmed ts st =
      { st with disconnects := st.disconnects ++
          (List.map Prod.fst
            (st.timestamp_map.filter
              (fun p => decide ((cfg.idle_timeout : Int) ≤ ts - p.2)))) }
    := by
  unfold idleReap
  rw [if_pos h]
  exact reapFold cfg ts st.timestamp_map st

theorem idleReap_off (cfg : Config) (alarmed : Bool) (ts : Int) (st : State)
    (h : ¬(0 < cfg.idle_timeout ∧ alarmed = true)) :
    idleReap cfg alarmed ts st = st := by
  unfold idleReap
  rw [if_neg h]

theorem idleReap_tables (cfg : Config) (alarmed : Bool) (ts : Int)
    (st : State) :
    (idleReap cfg alarmed ts st).supply_map = st.supply_map ∧
    (idleReap cfg alarmed ts st).demand_map = st.demand_map ∧
    (idleReap cfg alarmed ts st).unmet_supply = st.unmet_supply ∧
    (idleReap cfg alarmed ts st).unmet_demand = st.unmet_demand ∧
    (idleReap cfg alarmed ts st).drivers = st.drivers ∧
    (idleReap cfg alarmed ts st).frozen = st.frozen ∧
    (idleReap cfg alarmed ts st).timestamp_map = st.timestamp_map ∧
    (idleReap cfg alarmed ts st).writes = st.writes ∧
    (idleReap cfg alarmed ts st).outgoing = st.outgoing ∧
    (idleReap cfg alarmed ts st).forbidden = st.forbidden ∧
    (idleReap cfg alarmed ts st).terminated = st.terminated := by
  by_cases h : 0 < cfg.idle_timeout ∧ alarmed = true
  · rw [idleReap_on cfg alarmed ts st h]
    exact ⟨rfl, rfl, rfl, rfl, rfl, rfl, rfl, rfl, rfl, rfl, rfl⟩
  · rw [idleReap_off cfg alarmed ts st h]
    exact ⟨rfl, rfl, rfl, rfl, rfl, rfl, rfl, rfl, rfl, rfl, rfl⟩

theorem wf_driverPublication {cfg : Config} {ts : Int} {nd : Nat}
    {alarmed : Bool} {st : State} (hwf : WF st) :
    WF (driverPublication cfg ts nd alarmed st) := by
  obtain ⟨a1, a2, a3, a4, a5, a6, _, _, _, _⟩ :=
    driverPublication_tables cfg ts nd alarmed st
  exact wf_congr hwf a1 a2 a3 a4 a5 a6

theorem wf_drainIncoming {ts : Int} {l : List Desc} {st : State}
    (hwf : WF st) : WF (drainIncoming ts st l) := by
  obtain ⟨a1, a2, a3, a4, a5, a6, _, _, _⟩ := incFold_tables ts l st
  exact wf_congr hwf a1 a2 a3 a4 a5 a6

theorem wf_idleReap {cfg : Config} {alarmed : Bool} {ts : Int} {st : State}
    (hwf : WF st) : WF (idleReap cfg alarmed ts st) := by
  obtain ⟨a1, a2, a3, a4, a5, a6, _, _, _, _, _⟩ :=
    idleReap_tables cfg alarmed ts st
  exact wf_congr hwf a1 a2 a3 a4 a5 a6

/-- Preservation of the engine invariant by one full event-loop iteration. -/
theorem wf_iterate {cfg : Config} {st : State} {inp : IterInput}
    (hwf : WF st) (hg : GoodConns st inp) : WF (iterate cfg st inp) := by
  unfold iterate iterateND
  dsimp only
  split
  · exact wf_congr hwf rfl rfl rfl rfl rfl rfl
  · have hwf0 : WF { st with
        terminated := !inp.sigs.contains Sig.alarm && !inp.serve_ok } :=
      wf_congr hwf rfl rfl rfl rfl rfl rfl
    have hwf1 := @wf_drainDisc { st with
        terminated := !inp.sigs.contains Sig.alarm && !inp.serve_ok }
      inp.disconnections hwf0
    have hg1 : ∀ c ∈ inp.connections, c.1 ≠ NO_DESCRIPTOR ∧
        ¬ Tracked (drainDisc { st with
          terminated := !inp.sigs.contains Sig.alarm && !inp.serve_ok }
          inp.disconnections) c.1 := by
      intro c hc
      refine ⟨(hg.fresh c hc).1, fun ht => (hg.fresh c hc).2 ?_⟩
      exact @tracked_drainDisc { st with
          terminated := !inp.sigs.contains Sig.alarm && !inp.serve_ok }
        c.1 inp.disconnections hwf0 ht
    have hwf2 := @wf_drainConn cfg inp.timestamp _ inp.connections
      hwf1 hg.nd hg1
    exact wf_idleReap (wf_drainIncoming (wf_driverPublication hwf2))

/-! ### Write and activity bookkeeping of the publication pass -/

theorem pub1_writes (cfg : Config) (ts : Int) (nd : Nat) (st : State)
    (e : Desc) :
    (pub1 cfg ts nd st e).writes = st.writes ∨
    (pub1 cfg ts nd st e).writes = st.writes ++
      [(e, toString (if nd = 0 then st.unmet_demand.length else nd) ++
        "\n")] := by
  unfold pub1
  dsimp only
  split_ifs <;> simp_all

theorem pub1_lookup_ne (cfg : Config) (ts : Int) (nd : Nat) (st : State)
    (e d : Desc) (h : d ≠ e) :
    lookupA (pub1 cfg ts nd st e).timestamp_map d =
      lookupA st.timestamp_map d := by
  have hne : ¬(e = d) := fun hc => h hc.symm
  unfold pub1
  dsimp only
  split_ifs <;>
    simp [lookupA_insertA_ne _ e d _ h, lookupA, hne]

theorem pubFold_nin (cfg : Config) (ts : Int) (nd : Nat) (l : List Desc)
    (st : State) (d : Desc) (h : d ∉ l) :
    lookupA (l.foldl (pub1 cfg ts nd) st).timestamp_map d =
      lookupA st.timestamp_map d ∧
    (l.foldl (pub1 cfg ts nd) st).writes.filter (fun w => w.1 = d) =
      st.writes.filter (fun w => w.1 = d) := by
  induction l generalizing st with
  | nil => exact ⟨rfl, rfl⟩
  | cons e r ih =>
    have hd : d ≠ e := fun hc => h (hc ▸ List.mem_cons_self e r)
    have hr : d ∉ r := fun hc => h (List.mem_cons_of_mem e hc)
    rw [List.foldl_cons]
    obtain ⟨i1, i2⟩ := ih (pub1 cfg ts nd st e) hr
    refine ⟨i1.trans (pub1_lookup_ne cfg ts nd st e d hd), i2.trans ?_⟩
    rcases pub1_writes cfg ts nd st e with hw | hw
    · rw [hw]
    · rw [hw, List.filter_append]
      have hed : ¬(e = d) := fun hc => hd hc.symm
      simp [List.filter_cons, hed]

theorem pubFold_writes_ex (cfg : Config) (ts : Int) (nd : Nat)
    (l : List Desc) (st : State) :
    ∃ tail, (l.foldl (pub1 cfg ts nd) st).writes = st.writes ++ tail ∧
      ∀ w ∈ tail,
        w.2 = toString (if nd = 0 then st.unmet_demand.length else nd) ++
          "\n" := by
  induction l generalizing st with
  | nil => exact ⟨[], (List.append_nil _).symm, by simp⟩
  | cons e r ih =>
    rw [List.foldl_cons]
    obtain ⟨tail, ht1, ht2⟩ := ih (pub1 cfg ts nd st e)
    have hud : (pub1 cfg ts nd st e).unmet_demand = st.unmet_demand :=
      (pub1_tables cfg ts nd st e).2.2.2.1
    rw [hud] at ht2
    rcases pub1_writes cfg ts nd st e with hw | hw
    · rw [hw] at ht1
      exact ⟨tail, ht1, ht2⟩
    · rw [hw] at ht1
      refine ⟨(e, toString (if nd = 0 then st.unmet_demand.length else nd) ++
        "\n") :: tail, by rw [ht1, List.append_assoc]; rfl, ?_⟩
      intro w hw2
      rcases List.mem_cons.mp hw2 with rfl | hw3
      · rfl
      · exact ht2 w hw3

theorem pubFold_din (cfg : Config) (ts : Int) (nd : Nat) (l : List Desc)
    (st : State) (d : Desc) (tsd : Int) (hmem : d ∈ l) (hnd : l.Nodup)
    (hts : lookupA st.timestamp_map d = some tsd) (hle : tsd ≤ ts)
    (hz : nd ≠ 0) :
    (l.foldl (pub1 cfg ts nd) st).writes.filter (fun w => w.1 = d) =
      st.writes.filter (fun w => w.1 = d) ++ [(d, toString nd ++ "\n")] ∧
    lookupA (l.foldl (pub1 cfg ts nd) st).timestamp_map d = some ts := by
  induction l generalizing st tsd with
  | nil => cases hmem
  | cons e r ih =>
    rw [List.nodup_cons] at hnd
    rw [List.foldl_cons]
    rcases List.mem_cons.mp hmem with rfl | hmr
    · rw [pub1_write cfg ts nd st d tsd hts hle hz]
      obtain ⟨n1, n2⟩ := pubFold_nin cfg ts nd r
        { st with writes := st.writes ++ [(d, toString nd ++ "\n")]
                  timestamp_map := insertA st.timestamp_map d ts } d hnd.1
      constructor
      · rw [n2]
        dsimp only
        rw [List.filter_append]
        simp [List.filter]
      · rw [n1]
        exact lookupA_insertA_self _ _ _
    · have hde : d ≠ e := fun hc => hnd.1 (hc ▸ hmr)
      have hts2 : lookupA (pub1 cfg ts nd st e).timestamp_map d = some tsd :=
        (pub1_lookup_ne cfg ts nd st e d hde).trans hts
      obtain ⟨i1, i2⟩ := ih (pub1 cfg ts nd st e) tsd hmr hnd.2 hts2 hle
      refine ⟨i1.trans ?_, i2⟩
      rcases pub1_writes cfg ts nd st e with hw | hw
      · rw [hw]
      · rw [hw, List.filter_append]
        have hed : ¬(e = d) := fun hc => hde hc.symm
        simp [List.filter_cons, hed]

/-! ### Activity and forwarding bookkeeping of the incoming drain -/

theorem incFold_keep (ts : Int) (l : List Desc) (st : State) (x : Desc)
    (h : lookupA st.timestamp_map x = some ts) :
    lookupA (drainIncoming ts st l).timestamp_map x = some ts := by
  induction l generalizing st with
  | nil => exact h
  | cons e r ih =>
    unfold drainIncoming at ih ⊢
    rw [List.foldl_cons]
    exact ih (inc1 ts st e) (inc1_lookup_keep ts st e x h)

theorem incFold_lookup (ts : Int) (l : List Desc) (st : State) :
    ∀ x ∈ l, lookupA (drainIncoming ts st l).timestamp_map x = some ts := by
  induction l generalizing st with
  | nil => intro x hx; cases hx
  | cons e r ih =>
    intro x hx
    unfold drainIncoming
    rw [List.foldl_cons]
    rcases List.mem_cons.mp hx with rfl | hxr
    · exact incFold_keep ts r (inc1 ts st x) x (inc1_lookup_self ts st x)
    · exact ih (inc1 ts st e) x hxr

theorem inc1_outgoing (ts : Int) (st : State) (e : Desc) :
    (inc1 ts st e).outgoing = st.outgoing ∨
    (∃ f, (inc1 ts st e).outgoing = st.outgoing ++ [(f, e)] ∧
      e ∉ st.drivers) := by
  unfold inc1
  dsimp only
  split_ifs with h1 h2
  · exact Or.inl rfl
  · exact Or.inl rfl
  · exact Or.inr ⟨_, rfl, h1⟩

theorem incFold_outgoing (ts : Int) (l : List Desc) (st : State) :
    ∃ tail, (drainIncoming ts st l).outgoing = st.outgoing ++ tail ∧
      ∀ p ∈ tail, p.2 ∉ st.drivers := by
  induction l generalizing st with
  | nil => exact ⟨[], (List.append_nil _).symm, by simp⟩
  | cons e r ih =>
    unfold drainIncoming at ih ⊢
    rw [List.foldl_cons]
    obtain ⟨tail, ht1, ht2⟩ := ih (inc1 ts st e)
    have hdr : (inc1 ts st e).drivers = st.drivers :=
      (inc1_tables ts st e).2.2.2.2.1
    rw [hdr] at ht2
    rcases inc1_outgoing ts st e with ho | ⟨f, ho, hedr⟩
    · rw [ho] at ht1
      exact ⟨tail, ht1, ht2⟩
    · rw [ho] at ht1
      refine ⟨(f, e) :: tail, by rw [ht1, List.append_assoc]; rfl, ?_⟩
      intro p hp
      rcases List.mem_cons.mp hp with rfl | hp2
      · exact hedr
      · exact ht2 p hp2

/-! ### Baseline facts for the witnesses -/

theorem wf_initialState : WF initialState := by
  constructor <;> decide

theorem wf_stY : WF stY := by
  constructor <;> decide

/-! ### The claims -/

/-- C1 counterexample: with a paired connection standing, delivery of
`SIGINT` makes the loop disconnect the three listeners and exit after that
very iteration (`continue` in a `do`-`while` jumps to the exit test, which
fails at once): the pending disconnection events supplied for the next
iteration are never drained, and the pairing tables still hold the pair
`(7, 8)` when the loop has exited, contradicting the claim that the loop
performs a further iteration draining the pending disconnections and exits
only once the queues are drained. -/
theorem C1_counterexample :
    (runLoop cfgX stY [inpY1, inpY2]).2 = 1 ∧
    (runLoop cfgX stY [inpY1, inpY2]).1.supply_map = [(7, 8)] ∧
    (runLoop cfgX stY [inpY1, inpY2]).1.terminated = true := by
  decide

/-- C1 (amended): once an iteration ends with `terminated` set, the
`do`-`while` loop exits immediately with that iteration the last one
executed; when `terminated` was set by a termination signal, that final
iteration only initiates disconnection of the demand, supply and driver
listening descriptors (lines 118-124) and drains no event queue. -/
theorem C1_amended_exit (cfg : Config) (st : State) (inp : IterInput)
    (rest : List IterInput) (h : (iterate cfg st inp).terminated = true) :
    runLoop cfg st (inp :: rest) = (iterate cfg st inp, 1) ∧
    (st.terminated = false → inp.sigs.any isTermSig = true →
      iterate cfg st inp =
        { st with terminated := true
                  disconnects := st.disconnects ++
                    [cfg.demand_descriptor, cfg.supply_descriptor,
                     cfg.driver_descriptor] }) := by
  constructor
  · simp only [runLoop, h, if_true]
  · intro h1 h2
    unfold iterate iterateND
    rw [h1, h2]
    simp

/-- Witness for C1 (amended) at the concrete shutdown scenario. -/
theorem C1_amended_exit_witness :
    runLoop cfgX stY [inpY1, inpY2] = (iterate cfgX stY inpY1, 1) ∧
    (stY.terminated = false → inpY1.sigs.any isTermSig = true →
      iterate cfgX stY inpY1 =
        { stY with terminated := true
                   disconnects := stY.disconnects ++
                     [cfgX.demand_descriptor, cfgX.supply_descriptor,
                      cfgX.driver_descriptor] }) :=
  C1_amended_exit cfgX stY inpY1 [inpY2] (by decide)

/-- C2: after any event-loop iteration starting from a well-formed state
with a fresh connection batch, the pairing tables are symmetric in both
directions; and draining the disconnection of a supply descriptor whose
entry names a live partner `o` replaces the partner's reverse entry with
`NO_DESCRIPTOR` rather than leaving a stale peer. -/
theorem C2_pairing_symmetry (cfg : Config) (st st2 : State)
    (inp : IterInput) (d o : Desc) (hwf : WF st) (hg : GoodConns st inp)
    (hwf2 : WF st2) (hlk : lookupA st2.supply_map d = some o)
    (ho : o ≠ NO_DESCRIPTOR) :
    (∀ p ∈ (iterate cfg st inp).supply_map, p.2 ≠ NO_DESCRIPTOR →
      lookupA (iterate cfg st inp).demand_map p.2 = some p.1) ∧
    (∀ p ∈ (iterate cfg st inp).demand_map, p.2 ≠ NO_DESCRIPTOR →
      lookupA (iterate cfg st inp).supply_map p.2 = some p.1) ∧
    lookupA (drainDisc1 st2 d).demand_map o = some NO_DESCRIPTOR := by
  refine ⟨(wf_iterate hwf hg).sym_s, (wf_iterate hwf hg).sym_d, ?_⟩
  have hdr : d ∉ st2.drivers := hwf2.sm_dr d (keysA_mem_of_lookupA hlk)
  rw [drainDisc1_supply st2 d o hdr hlk]
  have hmem : (d, o) ∈ st2.supply_map := mem_of_lookupA hlk
  have hdm : lookupA st2.demand_map o = some d := hwf2.sym_s (d, o) hmem ho
  have hodm : o ∈ keysA st2.demand_map := keysA_mem_of_lookupA hdm
  have hosm : o ∉ keysA (eraseA st2.supply_map d) := fun hc =>
    hwf2.sm_dm o (mem_keysA_eraseA.mp hc).1 hodm
  rw [finishDisc_demand
    { st2 with timestamp_map := eraseA st2.timestamp_map d
               frozen := eraseS st2.frozen d
               supply_map := eraseA st2.supply_map d } o ho hosm hodm]
  exact lookupA_insertA_self st2.demand_map o NO_DESCRIPTOR

/-- Witness for C2 at a concrete iteration and a concrete teardown. -/
theorem C2_pairing_symmetry_witness :
    (∀ p ∈ (iterate cfgX initialState inpX1).supply_map,
      p.2 ≠ NO_DESCRIPTOR →
      lookupA (iterate cfgX initialState inpX1).demand_map p.2 =
        some p.1) ∧
    (∀ p ∈ (iterate cfgX initialState inpX1).demand_map,
      p.2 ≠ NO_DESCRIPTOR →
      lookupA (iterate cfgX initialState inpX1).supply_map p.2 =
        some p.1) ∧
    lookupA (drainDisc1 stY 7).demand_map 8 = some NO_DESCRIPTOR :=
  C2_pairing_symmetry cfgX initialState stY inpX1 7 8 wf_initialState
    ⟨by decide, by decide⟩ wf_stY (by decide) (by decide)

/-- C3: at the end of every event-loop iteration from a well-formed state
with a fresh connection batch, at least one of the two waiting sets is
empty (pairing is greedy and immediate). -/
theorem C3_no_double_match (cfg : Config) (st : State) (inp : IterInput)
    (hwf : WF st) (hg : GoodConns st inp) :
    (iterate cfg st inp).unmet_supply = [] ∨
    (iterate cfg st inp).unmet_demand = [] :=
  (wf_iterate hwf hg).meet

/-- Witness for C3 at a concrete iteration. -/
theorem C3_no_double_match_witness :
    (iterate cfgX initialState inpX2).unmet_supply = [] ∨
    (iterate cfgX initialState inpX2).unmet_demand = [] :=
  C3_no_double_match cfgX initialState inpX2 wf_initialState
    ⟨by decide, by decide⟩

/-- C8: after any event-loop iteration from a well-formed state with a
fresh connection batch, a descriptor is in the Multiplexer's frozen set
exactly when it belongs to `unmet_supply ∪ unmet_demand`. -/
theorem C8_freeze_iff (cfg : Config) (st : State) (inp : IterInput)
    (hwf : WF st) (hg : GoodConns st inp) :
    (∀ x ∈ (iterate cfg st inp).frozen,
      x ∈ (iterate cfg st inp).unmet_supply ∨
      x ∈ (iterate cfg st inp).unmet_demand) ∧
    (∀ x ∈ (iterate cfg st inp).unmet_supply,
      x ∈ (iterate cfg st inp).frozen) ∧
    (∀ x ∈ (iterate cfg st inp).unmet_demand,
      x ∈ (iterate cfg st inp).frozen) :=
  ⟨(wf_iterate hwf hg).fr_mem, (wf_iterate hwf hg).us_fr,
   (wf_iterate hwf hg).ud_fr⟩

/-- Witness for C8 at a concrete iteration that freezes a demand
connection. -/
theorem C8_freeze_iff_witness :
    (∀ x ∈ (iterate cfgX initialState inpX2).frozen,
      x ∈ (iterate cfgX initialState inpX2).unmet_supply ∨
      x ∈ (iterate cfgX initialState inpX2).unmet_demand) ∧
    (∀ x ∈ (iterate cfgX initialState inpX2).unmet_supply,
      x ∈ (iterate cfgX initialState inpX2).frozen) ∧
    (∀ x ∈ (iterate cfgX initialState inpX2).unmet_demand,
      x ∈ (iterate cfgX initialState inpX2).frozen) :=
  C8_freeze_iff cfgX initialState inpX2 wf_initialState
    ⟨by decide, by decide⟩

/-- C9: a new connection whose originating listener is none of the supply
listener, the demand listener, or an enabled driver listener only
increments the "Forbidden condition met" log counter and records the
descriptor's activity timestamp: every pairing container, the frozen set,
the write and forwarding records and the `new_demand` counter are left
unchanged, so the descriptor is tracked only by `last_activity`. -/
theorem C9_unknown_listener (cfg : Config) (ts : Int) (st : State)
    (nd : Nat) (d lst : Desc) (h1 : ¬(lst = cfg.supply_descriptor))
    (h2 : ¬(lst = cfg.demand_descriptor))
    (h3 : ¬(lst = cfg.driver_descriptor ∧
      cfg.driver_descriptor ≠ NO_DESCRIPTOR)) :
    (drainConn1 cfg ts (st, nd) (d, lst)).1.forbidden = st.forbidden + 1 ∧
    lookupA (drainConn1 cfg ts (st, nd) (d, lst)).1.timestamp_map d =
      some ts ∧
    (drainConn1 cfg ts (st, nd) (d, lst)).1.supply_map = st.supply_map ∧
    (drainConn1 cfg ts (st, nd) (d, lst)).1.demand_map = st.demand_map ∧
    (drainConn1 cfg ts (st, nd) (d, lst)).1.unmet_supply =
      st.unmet_supply ∧
    (drainConn1 cfg ts (st, nd) (d, lst)).1.unmet_demand =
      st.unmet_demand ∧
    (drainConn1 cfg ts (st, nd) (d, lst)).1.drivers = st.drivers ∧
    (drainConn1 cfg ts (st, nd) (d, lst)).1.frozen = st.frozen ∧
    (drainConn1 cfg ts (st, nd) (d, lst)).1.writes = st.writes ∧
    (drainConn1 cfg ts (st, nd) (d, lst)).1.outgoing = st.outgoing ∧
    (drainConn1 cfg ts (st, nd) (d, lst)).2 = nd := by
  rw [drainConn1_unknown cfg ts st nd d lst h1 h2 h3]
  exact ⟨rfl, lookupA_insertA_self st.timestamp_map d ts, rfl, rfl, rfl,
    rfl, rfl, rfl, rfl, rfl, rfl⟩

/-- Witness for C9: a connection from an unknown listener (descriptor 9)
arriving at the broker. -/
theorem C9_unknown_listener_witness :
    (drainConn1 cfgX 100 (initialState, 0) (12, 9)).1.forbidden =
      initialState.forbidden + 1 ∧
    lookupA (drainConn1 cfgX 100 (initialState, 0) (12, 9)).1.timestamp_map
      12 = some 100 ∧
    (drainConn1 cfgX 100 (initialState, 0) (12, 9)).1.supply_map =
      initialState.supply_map ∧
    (drainConn1 cfgX 100 (initialState, 0) (12, 9)).1.demand_map =
      initialState.demand_map ∧
    (drainConn1 cfgX 100 (initialState, 0) (12, 9)).1.unmet_supply =
      initialState.unmet_supply ∧
    (drainConn1 cfgX 100 (initialState, 0) (12, 9)).1.unmet_demand =
      initialState.unmet_demand ∧
    (drainConn1 cfgX 100 (initialState, 0) (12, 9)).1.drivers =
      initialState.drivers ∧
    (drainConn1 cfgX 100 (initialState, 0) (12, 9)).1.frozen =
      initialState.frozen ∧
    (drainConn1 cfgX 100 (initialState, 0) (12, 9)).1.writes =
      initialState.writes ∧
    (drainConn1 cfgX 100 (initialState, 0) (12, 9)).1.outgoing =
      initialState.outgoing ∧
    (drainConn1 cfgX 100 (initialState, 0) (12, 9)).2 = 0 :=
  C9_unknown_listener cfgX 100 initialState 0 12 9 (by decide) (by decide)
    (by decide)

theorem eq_of_mem_keys_nodup {β : Type} {m : List (Desc × β)}
    {p q : Desc × β} (hnd : (keysA m).Nodup) (hp : p ∈ m) (hq : q ∈ m)
    (h : p.1 = q.1) : p = q := by
  have h1 := lookupA_of_mem hnd hp
  have h2 := lookupA_of_mem hnd hq
  rw [h, h2] at h1
  exact Prod.ext h (Option.some.inj h1).symm

/-- C7: in an alarmed iteration with a positive idle timeout, the reaper
initiates `disconnect` on exactly those descriptors whose activity entry is
at least `idle_timeout` seconds old; an entry from the future (negative
age, e.g. the driver sentinel or a wall-clock jump backwards) is never
reaped; and nothing is reaped when `idle_timeout` is zero or the iteration
consumed no alarm. -/
theorem C7_idle_reaper (cfg : Config) (alarmed : Bool) (ts : Int)
    (st : State) (hnd : (keysA st.timestamp_map).Nodup) :
    ((0 < cfg.idle_timeout ∧ alarmed = true) →
      ∀ p ∈ st.timestamp_map,
        (p.1 ∈ (idleReap cfg alarmed ts st).disconnects.drop
            st.disconnects.length ↔
          (cfg.idle_timeout : Int) ≤ ts - p.2)) ∧
    ((0 < cfg.idle_timeout ∧ alarmed = true) →
      ∀ p ∈ st.timestamp_map, ts - p.2 < 0 →
        p.1 ∉ (idleReap cfg alarmed ts st).disconnects.drop
          st.disconnects.length) ∧
    (¬(0 < cfg.idle_timeout ∧ alarmed = true) →
      idleReap cfg alarmed ts st = st) := by
  have key : (0 < cfg.idle_timeout ∧ alarmed = true) →
      ∀ p ∈ st.timestamp_map,
        (p.1 ∈ (idleReap cfg alarmed ts st).disconnects.drop
            st.disconnects.length ↔
          (cfg.idle_timeout : Int) ≤ ts - p.2) := by
    intro h p hp
    rw [idleReap_on cfg alarmed ts st h]
    dsimp only
    rw [List.drop_left]
    constructor
    · intro hmem
      rcases List.mem_map.mp hmem with ⟨q, hq, hq1⟩
      rcases List.mem_filter.mp hq with ⟨hqm, hqc⟩
      have : q = p := eq_of_mem_keys_nodup hnd hqm hp hq1
      rw [← this]
      exact of_decide_eq_true hqc
    · intro hc
      exact List.mem_map.mpr ⟨p,
        List.mem_filter.mpr ⟨hp, decide_eq_true hc⟩, rfl⟩
  refine ⟨key, ?_, fun h => idleReap_off cfg alarmed ts st h⟩
  intro h p hp hneg hmem
  have hle := (key h p hp).mp hmem
  have hpos : (0 : Int) < (cfg.idle_timeout : Int) := by
    exact_mod_cast h.1
  omega

/-- Witness for C7: at second 100 with a five-second timeout, the stale
descriptor 7 (age ten) is reaped while the future-dated descriptor 9
(age minus six) is not; with the alarm absent the state is untouched. -/
theorem C7_idle_reaper_witness :
    ((7 : Desc) ∈ (idleReap cfgZ true 100 stZ).disconnects.drop
      stZ.disconnects.length) ∧
    ((9 : Desc) ∉ (idleReap cfgZ true 100 stZ).disconnects.drop
      stZ.disconnects.length) ∧
    idleReap cfgZ false 100 stZ = stZ :=
  ⟨((C7_idle_reaper cfgZ true 100 stZ (by decide)).1 (by decide)
      (7, 90) (by decide)).mpr (by decide),
   (C7_idle_reaper cfgZ true 100 stZ (by decide)).2.1 (by decide)
      (9, 106) (by decide) (by decide),
   (C7_idle_reaper cfgZ false 100 stZ (by decide)).2.2 (by decide)⟩

/-- C4 counterexample: driver 10 connects in an iteration with no alarm
and no new demand, so the publication pass does not run and the sentinel
`timestamp + 1` survives the iteration.  In the next iteration, still in
the same wall-clock second, a demand connection queues unmatched
(`new_demand = 1`), yet driver 10 — present before that iteration — is
skipped by the publication pass (its activity entry still exceeds the
timestamp), so no driver is sent the delta: driver 10's only write remains
the initial `"0\n"` count, contradicting the claim that every driver
present before the iteration is sent `new_demand`. -/
theorem C4_counterexample :
    (10 : Desc) ∈ (iterate cfgX initialState inpX1).drivers ∧
    (iterateND cfgX (iterate cfgX initialState inpX1) inpX2).2 = 1 ∧
    (iterate cfgX (iterate cfgX initialState inpX1) inpX2).writes.filter
      (fun w => w.1 = 10) = [(10, "0\n")] := by
  decide

/-- C4 (amended): when new unmet demand accrued (`new_demand ≠ 0`), the
publication pass appends exactly one `new_demand` decimal line for a
driver whose activity entry is not the uncleared `timestamp + 1` sentinel
(i.e. is at most the current timestamp); and every line a publication pass
appends carries the iteration's `new_demand` when it is nonzero and
`|unmet_demand|` otherwise, so the last value sent in a publishing
iteration is one of those two. -/
theorem C4_amended_delta (cfg : Config) (ts : Int) (nd : Nat)
    (alarmed : Bool) (st : State) (d : Desc) (tsd : Int)
    (hdr : d ∈ st.drivers) (hdnd : st.drivers.Nodup)
    (hts : lookupA st.timestamp_map d = some tsd) (hle : tsd ≤ ts)
    (hpass : nd ≠ 0 ∨ alarmed = true) :
    (nd ≠ 0 →
      (driverPublication cfg ts nd alarmed st).writes.filter
        (fun w => w.1 = d) =
        st.writes.filter (fun w => w.1 = d) ++
          [(d, toString nd ++ "\n")]) ∧
    (driverPublication cfg ts nd alarmed st).writes.take
      st.writes.length = st.writes ∧
    (∀ w ∈ (driverPublication cfg ts nd alarmed st).writes.drop
        st.writes.length,
      w.2 = toString (if nd = 0 then st.unmet_demand.length else nd) ++
        "\n") := by
  unfold driverPublication
  rw [if_pos hpass]
  obtain ⟨tail, ht1, ht2⟩ := pubFold_writes_ex cfg ts nd st.drivers st
  refine ⟨?_, ?_, ?_⟩
  · intro hz
    exact (pubFold_din cfg ts nd st.drivers st d tsd hdr hdnd hts hle hz).1
  · rw [ht1, List.take_left]
  · rw [ht1, List.drop_left]
    exact ht2

/-- Witness for C4 (amended): one second after connecting, driver 10 is no
longer sentinel-guarded and receives the delta of one new demand. -/
theorem C4_amended_delta_witness :
    ((1 : Nat) ≠ 0 →
      (driverPublication cfgX 101 1 false
        (iterate cfgX initialState inpX1)).writes.filter
        (fun w => w.1 = 10) =
        (iterate cfgX initialState inpX1).writes.filter
          (fun w => w.1 = 10) ++ [(10, toString (1 : Nat) ++ "\n")]) ∧
    (driverPublication cfgX 101 1 false
      (iterate cfgX initialState inpX1)).writes.take
      (iterate cfgX initialState inpX1).writes.length =
      (iterate cfgX initialState inpX1).writes ∧
    (∀ w ∈ (driverPublication cfgX 101 1 false
        (iterate cfgX initialState inpX1)).writes.drop
        (iterate cfgX initialState inpX1).writes.length,
      w.2 = toString (if (1 : Nat) = 0 then
        (iterate cfgX initialState inpX1).unmet_demand.length else 1) ++
        "\n") :=
  C4_amended_delta cfgX 101 1 false (iterate cfgX initialState inpX1) 10
    101 (by decide) (by decide) (by decide) (by decide) (by decide)

theorem driverPublication_sentinel (cfg : Config) (ts : Int) (nd2 : Nat)
    (alarmed : Bool) (q : State) (d : Desc) (l : List Desc) (tsd : Int)
    (hq : q.drivers = d :: l) (hnl : d ∉ l)
    (hts : lookupA q.timestamp_map d = some tsd) (hlt : ts < tsd)
    (hpass : nd2 ≠ 0 ∨ alarmed = true) :
    lookupA (driverPublication cfg ts nd2 alarmed q).timestamp_map d =
      some ts ∧
    (driverPublication cfg ts nd2 alarmed q).writes.filter
      (fun w => w.1 = d) = q.writes.filter (fun w => w.1 = d) := by
  unfold driverPublication
  rw [if_pos hpass, hq, List.foldl_cons,
    pub1_sentinel cfg ts nd2 q d tsd hts hlt]
  obtain ⟨n1, n2⟩ := pubFold_nin cfg ts nd2 l
    { q with timestamp_map := insertA q.timestamp_map d ts } d hnl
  exact ⟨n1.trans (lookupA_insertA_self q.timestamp_map d ts), n2⟩

/-- C5: processing a new connection `d` from the enabled driver listener
inserts `d` into `drivers`, leaves `last_activity[d] = timestamp + 1` (the
sentinel, strictly above the current timestamp), and immediately enqueues
the current `|unmet_demand|` to `d` as a decimal ASCII line; a driver
publication pass running in the same iteration then resets `d`'s entry to
`timestamp` and sends `d` nothing further. -/
theorem C5_driver_connect (cfg : Config) (ts : Int) (st : State)
    (nd nd2 : Nat) (alarmed : Bool) (d : Desc)
    (h1 : cfg.driver_descriptor ≠ NO_DESCRIPTOR)
    (h2 : ¬(cfg.driver_descriptor = cfg.supply_descriptor))
    (h3 : ¬(cfg.driver_descriptor = cfg.demand_descriptor))
    (hdr : d ∉ st.drivers) (hpass : nd2 ≠ 0 ∨ alarmed = true) :
    (drainConn1 cfg ts (st, nd) (d, cfg.driver_descriptor)).1.drivers =
      d :: st.drivers ∧
    lookupA (drainConn1 cfg ts (st, nd)
      (d, cfg.driver_descriptor)).1.timestamp_map d = some (ts + 1) ∧
    (drainConn1 cfg ts (st, nd) (d, cfg.driver_descriptor)).1.writes =
      st.writes ++ [(d, toString st.unmet_demand.length ++ "\n")] ∧
    lookupA (driverPublication cfg ts nd2 alarmed
      (drainConn1 cfg ts (st, nd)
        (d, cfg.driver_descriptor)).1).timestamp_map d = some ts ∧
    (driverPublication cfg ts nd2 alarmed
      (drainConn1 cfg ts (st, nd)
        (d, cfg.driver_descriptor)).1).writes.filter (fun w => w.1 = d) =
      (drainConn1 cfg ts (st, nd)
        (d, cfg.driver_descriptor)).1.writes.filter (fun w => w.1 = d) := by
  rw [drainConn1_driver cfg ts st nd d cfg.driver_descriptor h2 h3 rfl h1]
  dsimp only
  have hins : insertS st.drivers d = d :: st.drivers := by
    unfold insertS
    rw [if_neg hdr]
  obtain ⟨p1, p2⟩ := driverPublication_sentinel cfg ts nd2 alarmed
    { st with
      timestamp_map :=
        insertA (insertA st.timestamp_map d ts) d (ts + 1)
      drivers := insertS st.drivers d
      writes := st.writes ++
        [(d, toString st.unmet_demand.length ++ "\n")] }
    d st.drivers (ts + 1) hins hdr
    (lookupA_insertA_self (insertA st.timestamp_map d ts) d (ts + 1))
    (by omega) hpass
  exact ⟨hins, lookupA_insertA_self (insertA st.timestamp_map d ts) d
    (ts + 1), rfl, p1, p2⟩

/-- Witness for C5: the first driver (descriptor 10) connecting at second
100 with no unmet demand standing, followed by a publication pass forced
by one unit of new demand. -/
theorem C5_driver_connect_witness :
    (drainConn1 cfgX 100 (initialState, 0)
      (10, cfgX.driver_descriptor)).1.drivers =
      10 :: initialState.drivers ∧
    lookupA (drainConn1 cfgX 100 (initialState, 0)
      (10, cfgX.driver_descriptor)).1.timestamp_map 10 = some (100 + 1) ∧
    (drainConn1 cfgX 100 (initialState, 0)
      (10, cfgX.driver_descriptor)).1.writes =
      initialState.writes ++
        [(10, toString initialState.unmet_demand.length ++ "\n")] ∧
    lookupA (driverPublication cfgX 100 1 false
      (drainConn1 cfgX 100 (initialState, 0)
        (10, cfgX.driver_descriptor)).1).timestamp_map 10 = some 100 ∧
    (driverPublication cfgX 100 1 false
      (drainConn1 cfgX 100 (initialState, 0)
        (10, cfgX.driver_descriptor)).1).writes.filter
        (fun w => w.1 = 10) =
      (drainConn1 cfgX 100 (initialState, 0)
        (10, cfgX.driver_descriptor)).1.writes.filter
        (fun w => w.1 = 10) :=
  C5_driver_connect cfgX 100 initialState 0 1 false 10 (by decide)
    (by decide) (by decide) (by decide) (by decide)

/-- C10: the incoming-bytes drain refreshes `last_activity` to the current
timestamp for every descriptor with buffered input, drivers included,
while forwarding no bytes whose source is a driver; consequently a driver
that sends bytes has its sentinel erased, and a later publication pass
with nonzero `new_demand` (at any timestamp not before this one) sends it
exactly the delta line. -/
theorem C10_incoming_refresh (cfg : Config) (ts ts2 : Int) (nd2 : Nat)
    (alarmed : Bool) (st : State) (l : List Desc) (d : Desc)
    (hdnd : st.drivers.Nodup) (hd : d ∈ st.drivers) (hl : d ∈ l)
    (hle : ts ≤ ts2) (hz : nd2 ≠ 0) :
    (∀ x ∈ l, lookupA (drainIncoming ts st l).timestamp_map x = some ts) ∧
    (drainIncoming ts st l).outgoing.take st.outgoing.length =
      st.outgoing ∧
    (∀ p ∈ (drainIncoming ts st l).outgoing.drop st.outgoing.length,
      p.2 ∉ st.drivers) ∧
    (driverPublication cfg ts2 nd2 alarmed
      (drainIncoming ts st l)).writes.filter (fun w => w.1 = d) =
      (drainIncoming ts st l).writes.filter (fun w => w.1 = d) ++
        [(d, toString nd2 ++ "\n")] := by
  obtain ⟨tail, ht1, ht2⟩ := incFold_outgoing ts l st
  refine ⟨incFold_lookup ts l st, ?_, ?_, ?_⟩
  · rw [ht1, List.take_left]
  · rw [ht1, List.drop_left]
    exact ht2
  · unfold driverPublication
    rw [if_pos (Or.inl hz)]
    have hdl : (drainIncoming ts st l).drivers = st.drivers :=
      (incFold_tables ts l st).2.2.2.2.1
    rw [hdl]
    exact (pubFold_din cfg ts2 nd2 st.drivers (drainIncoming ts st l) d ts
      hd hdnd (incFold_lookup ts l st d hl) hle hz).1

/-- Witness for C10: driver 10 (carrying the sentinel from its connection
iteration) sends bytes; the drain stamps it with the current second and
the following delta publication reaches it. -/
theorem C10_incoming_refresh_witness :
    (∀ x ∈ [(10 : Desc)],
      lookupA (drainIncoming 100 (iterate cfgX initialState inpX1)
        [10]).timestamp_map x = some 100) ∧
    (drainIncoming 100 (iterate cfgX initialState inpX1)
      [10]).outgoing.take
      (iterate cfgX initialState inpX1).outgoing.length =
      (iterate cfgX initialState inpX1).outgoing ∧
    (∀ p ∈ (drainIncoming 100 (iterate cfgX initialState inpX1)
        [10]).outgoing.drop
        (iterate cfgX initialState inpX1).outgoing.length,
      p.2 ∉ (iterate cfgX initialState inpX1).drivers) ∧
    (driverPublication cfgX 100 1 false
      (drainIncoming 100 (iterate cfgX initialState inpX1)
        [10])).writes.filter (fun w => w.1 = 10) =
      (drainIncoming 100 (iterate cfgX initialState inpX1)
        [10]).writes.filter (fun w => w.1 = 10) ++
        [(10, toString (1 : Nat) ++ "\n")] :=
  C10_incoming_refresh cfgX 100 100 1 false
    (iterate cfgX initialState inpX1) [10] 10 (by decide) (by decide)
    (by decide) (by decide) (by decide)

/-- C6: draining the disconnection of a paired descriptor `d` with live
partner `o` removes `d`'s activity and pairing entries, overwrites the
partner's reverse entry with `NO_DESCRIPTOR`, and initiates `disconnect`
on the partner; after the partner's own disconnection is drained in turn,
neither descriptor remains in any table, while the waiting sets, the
driver set and every pairing entry of an uninvolved descriptor are
untouched — the failure never propagates beyond the pair. -/
theorem C6_pair_teardown (st : State) (d o : Desc) (hwf : WF st)
    (hone : lookupA st.supply_map d = some o ∨
      lookupA st.demand_map d = some o) (ho : o ≠ NO_DESCRIPTOR) :
    (drainDisc1 st d).disconnects = st.disconnects ++ [o] ∧
    lookupA (drainDisc1 st d).timestamp_map d = none ∧
    (lookupA (drainDisc1 st d).supply_map o = some NO_DESCRIPTOR ∨
     lookupA (drainDisc1 st d).demand_map o = some NO_DESCRIPTOR) ∧
    lookupA (drainDisc1 (drainDisc1 st d) o).timestamp_map d = none ∧
    lookupA (drainDisc1 (drainDisc1 st d) o).timestamp_map o = none ∧
    lookupA (drainDisc1 (drainDisc1 st d) o).supply_map d = none ∧
    lookupA (drainDisc1 (drainDisc1 st d) o).demand_map d = none ∧
    lookupA (drainDisc1 (drainDisc1 st d) o).supply_map o = none ∧
    lookupA (drainDisc1 (drainDisc1 st d) o).demand_map o = none ∧
    (d ∉ (drainDisc1 (drainDisc1 st d) o).unmet_supply ∧
     d ∉ (drainDisc1 (drainDisc1 st d) o).unmet_demand ∧
     d ∉ (drainDisc1 (drainDisc1 st d) o).drivers ∧
     o ∉ (drainDisc1 (drainDisc1 st d) o).unmet_supply ∧
     o ∉ (drainDisc1 (drainDisc1 st d) o).unmet_demand ∧
     o ∉ (drainDisc1 (drainDisc1 st d) o).drivers) ∧
    ((drainDisc1 (drainDisc1 st d) o).unmet_supply = st.unmet_supply ∧
     (drainDisc1 (drainDisc1 st d) o).unmet_demand = st.unmet_demand ∧
     (drainDisc1 (drainDisc1 st d) o).drivers = st.drivers) ∧
    (∀ p ∈ st.supply_map, p.1 ≠ d → p.1 ≠ o →
      lookupA (drainDisc1 (drainDisc1 st d) o).supply_map p.1 =
        some p.2) ∧
    (∀ q ∈ st.demand_map, q.1 ≠ d → q.1 ≠ o →
      lookupA (drainDisc1 (drainDisc1 st d) o).demand_map q.1 =
        some q.2) := by
  rcases hone with hsd | hdd
  · have hdsm : d ∈ keysA st.supply_map := keysA_mem_of_lookupA hsd
    have hdr : d ∉ st.drivers := hwf.sm_dr d hdsm
    have hmem : (d, o) ∈ st.supply_map := mem_of_lookupA hsd
    have hdm : lookupA st.demand_map o = some d := hwf.sym_s (d, o) hmem ho
    have hodm : o ∈ keysA st.demand_map := keysA_mem_of_lookupA hdm
    have hdo : d ≠ o := fun he => hwf.sm_dm d hdsm (he ▸ hodm)
    have hd_dm : d ∉ keysA st.demand_map := hwf.sm_dm d hdsm
    have hosm : o ∉ keysA (eraseA st.supply_map d) := fun hc =>
      hwf.sm_dm o (mem_keysA_eraseA.mp hc).1 hodm
    have hodr : o ∉ st.drivers := hwf.dm_dr o hodm
    rw [drainDisc1_supply st d o hdr hsd, finishDisc_demand
      { st with timestamp_map := eraseA st.timestamp_map d
                frozen := eraseS st.frozen d
                supply_map := eraseA st.supply_map d } o ho hosm hodm]
    rw [drainDisc1_demand
      { st with timestamp_map := eraseA st.timestamp_map d
                frozen := eraseS st.frozen d
                supply_map := eraseA st.supply_map d
                demand_map := insertA st.demand_map o NO_DESCRIPTOR
                disconnects := st.disconnects ++ [o] } o NO_DESCRIPTOR
      hodr (lookupA_eq_none.mpr hosm)
      (lookupA_insertA_self st.demand_map o NO_DESCRIPTOR),
      finishDisc_none]
    dsimp only
    refine ⟨rfl, lookupA_eraseA_self st.timestamp_map d,
      Or.inr (lookupA_insertA_self st.demand_map o NO_DESCRIPTOR),
      ?_, lookupA_eraseA_self _ o, lookupA_eraseA_self st.supply_map d,
      ?_, lookupA_eq_none.mpr hosm, lookupA_eraseA_self _ o,
      ⟨hwf.sm_us d hdsm, hwf.sm_ud d hdsm, hdr, hwf.dm_us o hodm,
        hwf.dm_ud o hodm, hodr⟩,
      ⟨rfl, rfl, rfl⟩, ?_, ?_⟩
    · rw [lookupA_eraseA_ne _ o d hdo]
      exact lookupA_eraseA_self st.timestamp_map d
    · rw [lookupA_eraseA_ne _ o d hdo,
        lookupA_insertA_ne _ o d _ hdo]
      exact lookupA_eq_none.mpr hd_dm
    · intro p hp hpd hpo
      rw [lookupA_eraseA_ne _ d p.1 hpd]
      exact lookupA_of_mem hwf.sm_nd hp
    · intro q hq hqd hqo
      rw [lookupA_eraseA_ne _ o q.1 hqo,
        lookupA_insertA_ne _ o q.1 _ hqo]
      exact lookupA_of_mem hwf.dm_nd hq
  · have hddm : d ∈ keysA st.demand_map := keysA_mem_of_lookupA hdd
    have hdr : d ∉ st.drivers := hwf.dm_dr d hddm
    have hmem : (d, o) ∈ st.demand_map := mem_of_lookupA hdd
    have hsm_o : lookupA st.supply_map o = some d := hwf.sym_d (d, o) hmem ho
    have hosm : o ∈ keysA st.supply_map := keysA_mem_of_lookupA hsm_o
    have hdo : d ≠ o := fun he => hwf.sm_dm o hosm (he ▸ hddm)
    have hd_sm : d ∉ keysA st.supply_map := fun hc => hwf.sm_dm d hc hddm
    have ho_dm : o ∉ keysA st.demand_map := hwf.sm_dm o hosm
    have hodr : o ∉ st.drivers := hwf.sm_dr o hosm
    rw [drainDisc1_demand st d o hdr (lookupA_eq_none.mpr hd_sm) hdd,
      finishDisc_supply
      { st with timestamp_map := eraseA st.timestamp_map d
                frozen := eraseS st.frozen d
                demand_map := eraseA st.demand_map d } o ho hosm]
    rw [drainDisc1_supply
      { st with timestamp_map := eraseA st.timestamp_map d
                frozen := eraseS st.frozen d
                demand_map := eraseA st.demand_map d
                supply_map := insertA st.supply_map o NO_DESCRIPTOR
                disconnects := st.disconnects ++ [o] } o NO_DESCRIPTOR
      hodr (lookupA_insertA_self st.supply_map o NO_DESCRIPTOR),
      finishDisc_none]
    dsimp only
    refine ⟨rfl, lookupA_eraseA_self st.timestamp_map d,
      Or.inl (lookupA_insertA_self st.supply_map o NO_DESCRIPTOR),
      ?_, lookupA_eraseA_self _ o, ?_, ?_, lookupA_eraseA_self _ o, ?_,
      ⟨hwf.dm_us d hddm, hwf.dm_ud d hddm, hdr, hwf.sm_us o hosm,
        hwf.sm_ud o hosm, hodr⟩,
      ⟨rfl, rfl, rfl⟩, ?_, ?_⟩
    · rw [lookupA_eraseA_ne _ o d hdo]
      exact lookupA_eraseA_self st.timestamp_map d
    · rw [lookupA_eraseA_ne _ o d hdo,
        lookupA_insertA_ne _ o d _ hdo]
      exact lookupA_eq_none.mpr hd_sm
    · exact lookupA_eraseA_self st.demand_map d
    · rw [lookupA_eraseA_ne _ d o (fun he => hdo he.symm)]
      exact lookupA_eq_none.mpr ho_dm
    · intro p hp hpd hpo
      rw [lookupA_eraseA_ne _ o p.1 hpo,
        lookupA_insertA_ne _ o p.1 _ hpo]
      exact lookupA_of_mem hwf.sm_nd hp
    · intro q hq hqd hqo
      rw [lookupA_eraseA_ne _ d q.1 hqd]
      exact lookupA_of_mem hwf.dm_nd hq

/-- Witness for C6 at the concrete pair 7 (supply) and 8 (demand). -/
theorem C6_pair_teardown_witness :
    (drainDisc1 stY 7).disconnects = stY.disconnects ++ [8] ∧
    lookupA (drainDisc1 stY 7).timestamp_map 7 = none ∧
    (lookupA (drainDisc1 stY 7).supply_map 8 = some NO_DESCRIPTOR ∨
     lookupA (drainDisc1 stY 7).demand_map 8 = some NO_DESCRIPTOR) ∧
    lookupA (drainDisc1 (drainDisc1 stY 7) 8).timestamp_map 7 = none ∧
    lookupA (drainDisc1 (drainDisc1 stY 7) 8).timestamp_map 8 = none ∧
    lookupA (drainDisc1 (drainDisc1 stY 7) 8).supply_map 7 = none ∧
    lookupA (drainDisc1 (drainDisc1 stY 7) 8).demand_map 7 = none ∧
    lookupA (drainDisc1 (drainDisc1 stY 7) 8).supply_map 8 = none ∧
    lookupA (drainDisc1 (drainDisc1 stY 7) 8).demand_map 8 = none ∧
    ((7 : Desc) ∉ (drainDisc1 (drainDisc1 stY 7) 8).unmet_supply ∧
     (7 : Desc) ∉ (drainDisc1 (drainDisc1 stY 7) 8).unmet_demand ∧
     (7 : Desc) ∉ (drainDisc1 (drainDisc1 stY 7) 8).drivers ∧
     (8 : Desc) ∉ (drainDisc1 (drainDisc1 stY 7) 8).unmet_supply ∧
     (8 : Desc) ∉ (drainDisc1 (drainDisc1 stY 7) 8).unmet_demand ∧
     (8 : Desc) ∉ (drainDisc1 (drainDisc1 stY 7) 8).drivers) ∧
    ((drainDisc1 (drainDisc1 stY 7) 8).unmet_supply = stY.unmet_supply ∧
     (drainDisc1 (drainDisc1 stY 7) 8).unmet_demand = stY.unmet_demand ∧
     (drainDisc1 (drainDisc1 stY 7) 8).drivers = stY.drivers) ∧
    (∀ p ∈ stY.supply_map, p.1 ≠ 7 → p.1 ≠ 8 →
      lookupA (drainDisc1 (drainDisc1 stY 7) 8).supply_map p.1 =
        some p.2) ∧
    (∀ q ∈ stY.demand_map, q.1 ≠ 7 → q.1 ≠ 8 →
      lookupA (drainDisc1 (drainDisc1 stY 7) 8).demand_map q.1 =
        some q.2) :=
  C6_pair_teardown stY 7 8 wf_stY (Or.inl (by decide)) (by decide)
